import Mathlib

/-!
# Verification development for `yolo11ncnn.cpp`

A shallow embedding of the JNI glue of the YOLO11 camera demo
(`app/src/main/jni/yolo11ncnn.cpp`) and theorems about it.

* `jint` values are modelled as `Int` (every theorem holds for all integers, hence for the
  32-bit ones);
* the file-level and function-level `static` variables become fields of explicit state
  records that each operation takes and returns;
* calls into external libraries (ncnn, OpenCV, JNI) are recorded as events, and object
  identity (`new`, `create_gpu_instance`) is modelled by drawing fresh numbers from a counter;
* `float` and `double` values are IEEE 754 binary32 and binary64 values (`Fp`), with every
  operation rounded to nearest, ties to even, and with signed zeros, infinities and NaN.
-/

namespace Yolo11Ncnn

/-! ## Worker manager: `loadModel` -/

/-- The object behind `g_yolo11`: which subclass was constructed (`task`), the files handed to
`load`, the `use_gpu || use_turnip` flag handed to `load`, the GPU instance that was alive when
`load` ran with that flag set, and the value last passed to `set_det_target_size`.
`ident` distinguishes two objects created by different `new` expressions. -/
structure Worker where
  ident : Nat
  task : Int
  parampath : String
  modelpath : String
  useVulkan : Bool
  gpuInstance : Option Nat
  targetSize : Int
  deriving DecidableEq

/-- The ncnn GPU instance: `driver` is the argument of `create_gpu_instance` (`none` for the
no-argument overload), `ident` distinguishes successive instances. -/
structure GpuInstance where
  ident : Nat
  driver : Option String
  deriving DecidableEq

/-- The state touched by `loadModel`: the global `g_yolo11`, the three function-local statics
`old_taskid`, `old_modelid`, `old_cpugpu`, the ncnn GPU instance, and the counter from which
identities of new objects are drawn. -/
structure Manager where
  g_yolo11 : Option Worker
  old_taskid : Int
  old_modelid : Int
  old_cpugpu : Int
  gpu : Option GpuInstance
  fresh : Nat
  deriving DecidableEq

/-- What a call of `loadModel` does to the outside world, in program order. -/
inductive LoadEvent where
  | deleteWorker (ident : Nat)
  | destroyGpu (ident : Nat)
  | createGpu (ident : Nat) (driver : Option String)
  | newWorker (ident : Nat) (task : Int)
  | load (ident : Nat) (parampath modelpath : String) (useVulkan : Bool)
  | setTargetSize (ident : Nat) (size : Int)
  deriving DecidableEq

/-- The table `tasknames[5]`. -/
def tasknames : List String := ["", "_seg", "_pose", "_cls", "_obb"]

/-- The table `modeltypes[9]`. -/
def modeltypes : List String := ["n", "s", "m", "n", "s", "m", "n", "s", "m"]

/-- The string `std::string("yolo11") + modeltypes[modelid] + tasknames[taskid] + ".ncnn.param"`. -/
def parampath (taskid modelid : Int) : String :=
  "yolo11" ++ modeltypes.getD modelid.toNat "" ++ tasknames.getD taskid.toNat "" ++ ".ncnn.param"

/-- The string `std::string("yolo11") + modeltypes[modelid] + tasknames[taskid] + ".ncnn.bin"`. -/
def modelpath (taskid modelid : Int) : String :=
  "yolo11" ++ modeltypes.getD modelid.toNat "" ++ tasknames.getD taskid.toNat "" ++ ".ncnn.bin"

/-- The local `target_size` of `loadModel`: 320, overwritten by 480 when `modelid >= 3` and
then by 640 when `modelid >= 6`. -/
def target_size (modelid : Int) : Int :=
  let t : Int := 320
  let t := if modelid ≥ 3 then 480 else t
  let t := if modelid ≥ 6 then 640 else t
  t

/-- The guard at the top of `loadModel`. -/
def outOfRange (taskid modelid cpugpu : Int) : Bool :=
  decide (taskid < 0) || decide (taskid > 4) || decide (modelid < 0) || decide (modelid > 8)
    || decide (cpugpu < 0) || decide (cpugpu > 2)

/-- The test `taskid != old_taskid || (modelid % 3) != old_modelid || cpugpu != old_cpugpu`.
`%` is C remainder (truncating), `Int.tmod`. -/
def changed (s : Manager) (taskid modelid cpugpu : Int) : Bool :=
  decide (taskid ≠ s.old_taskid) || decide (modelid.tmod 3 ≠ s.old_modelid)
    || decide (cpugpu ≠ s.old_cpugpu)

/-- The result of one `loadModel` call. -/
structure LoadResult where
  ret : Bool
  events : List LoadEvent
  state : Manager
  deriving DecidableEq

/-- The body of `Java_com_tencent_yolo11ncnn_YOLO11Ncnn_loadModel`, statement by statement.

1. out-of-range selectors: `return JNI_FALSE`;
2. if the selectors differ from the statics: `delete g_yolo11; g_yolo11 = 0`;
3. the statics are overwritten;
4. `ncnn::destroy_gpu_instance()`, then `create_gpu_instance("libvulkan_freedreno.so")` when
   `cpugpu == 2`, else `create_gpu_instance()` when `cpugpu == 1`;
5. if `g_yolo11` is null: `new` of the subclass chosen by `taskid`, then `load`;
6. `set_det_target_size(target_size)`; `return JNI_TRUE`.

`delete` of a null pointer and `destroy_gpu_instance` without an instance log nothing. -/
def loadModel (s : Manager) (taskid modelid cpugpu : Int) : LoadResult :=
  if outOfRange taskid modelid cpugpu then
    { ret := false, events := [], state := s }
  else
    let use_gpu : Bool := decide (cpugpu = 1)
    let use_turnip : Bool := decide (cpugpu = 2)
    -- delete g_yolo11; g_yolo11 = 0;
    let (ev1, w1) : List LoadEvent × Option Worker :=
      if changed s taskid modelid cpugpu then
        (match s.g_yolo11 with
          | some w => [LoadEvent.deleteWorker w.ident]
          | none => [], none)
      else ([], s.g_yolo11)
    -- ncnn::destroy_gpu_instance();
    let ev2 : List LoadEvent :=
      match s.gpu with
      | some g => [LoadEvent.destroyGpu g.ident]
      | none => []
    -- create_gpu_instance(...)
    let (ev3, gpu3, fresh3) : List LoadEvent × Option GpuInstance × Nat :=
      if use_turnip then
        ([LoadEvent.createGpu s.fresh (some "libvulkan_freedreno.so")],
          some { ident := s.fresh, driver := some "libvulkan_freedreno.so" }, s.fresh + 1)
      else if use_gpu then
        ([LoadEvent.createGpu s.fresh none], some { ident := s.fresh, driver := none },
          s.fresh + 1)
      else ([], none, s.fresh)
    -- if (!g_yolo11) { g_yolo11 = new ...; g_yolo11->load(...); }
    let (ev4, w4, fresh4) : List LoadEvent × Worker × Nat :=
      match w1 with
      | some w => ([], w, fresh3)
      | none =>
        let vk := use_gpu || use_turnip
        ([LoadEvent.newWorker fresh3 taskid,
          LoadEvent.load fresh3 (parampath taskid modelid) (modelpath taskid modelid) vk],
         { ident := fresh3, task := taskid, parampath := parampath taskid modelid,
           modelpath := modelpath taskid modelid, useVulkan := vk,
           gpuInstance := if vk then gpu3.map GpuInstance.ident else none,
           targetSize := 0 },
         fresh3 + 1)
    -- g_yolo11->set_det_target_size(target_size);
    let w5 : Worker := { w4 with targetSize := target_size modelid }
    { ret := true,
      events := ev1 ++ ev2 ++ ev3 ++ ev4 ++
        [LoadEvent.setTargetSize w5.ident (target_size modelid)],
      state :=
        { g_yolo11 := some w5, old_taskid := taskid, old_modelid := modelid.tmod 3,
          old_cpugpu := cpugpu, gpu := gpu3, fresh := fresh4 } }

/-- The state once `JNI_OnLoad` has run: no worker, the statics at their initialisers, and the
GPU instance made by `ncnn::create_gpu_instance()`. -/
def initManager : Manager :=
  { g_yolo11 := none, old_taskid := 0, old_modelid := 0, old_cpugpu := 0,
    gpu := some { ident := 0, driver := none }, fresh := 1 }

/-- One `loadModel` request: `(taskid, modelid, cpugpu)`. -/
abbrev Request := Int × Int × Int

/-- The request passes the range guard. -/
def Request.inRange (r : Request) : Prop := outOfRange r.1 r.2.1 r.2.2 = false

instance (r : Request) : Decidable r.inRange := by unfold Request.inRange; infer_instance

/-- The state after a sequence of `loadModel` calls. -/
def runLoads (s : Manager) (rs : List Request) : Manager :=
  rs.foldl (fun st r => (loadModel st r.1 r.2.1 r.2.2).state) s

/-- The call destroyed a worker. -/
def LoadResult.destroyed (r : LoadResult) : Bool :=
  r.events.any fun e => match e with
    | .deleteWorker _ => true
    | _ => false

/-- The call constructed a worker. -/
def LoadResult.constructed (r : LoadResult) : Bool :=
  r.events.any fun e => match e with
    | .newWorker _ _ => true
    | _ => false

/-- The three compared fields of a request differ from those of another request. -/
def Request.differs (r p : Request) : Prop :=
  r.1 ≠ p.1 ∨ r.2.1.tmod 3 ≠ p.2.1.tmod 3 ∨ r.2.2 ≠ p.2.2

instance (r p : Request) : Decidable (r.differs p) := by unfold Request.differs; infer_instance

/-- The invariant of the states reached from `initManager` by `loadModel` calls: the worker,
when there is one, is the one built for the selectors remembered in the statics. -/
def Coherent (s : Manager) : Prop :=
  ∀ w, s.g_yolo11 = some w →
    w.task = s.old_taskid ∧ w.parampath = parampath s.old_taskid s.old_modelid ∧
    w.modelpath = modelpath s.old_taskid s.old_modelid

/-! ## Display orientation: `setDisplayOrientation` -/

/-- The body of `Java_com_tencent_yolo11ncnn_YOLO11Ncnn_setDisplayOrientation` as a function from
the old value of `g_display_rotation` to the new one. `degrees % 360` is C remainder
(`Int.tmod`, the sign follows the dividend). -/
def setDisplayOrientation (g_display_rotation : Int) (degrees : Int) : Int :=
  let d := degrees.tmod 360
  let d := if d < 0 then d + 360 else d
  if d = 0 ∨ d = 90 ∨ d = 180 ∨ d = 270 then d else g_display_rotation

/-- The value of `g_display_rotation` after a sequence of setter calls; its initialiser is 0. -/
def runOrientation (calls : List Int) : Int :=
  calls.foldl setDisplayOrientation 0

/-! ## Frames and the rotation step of `on_image_render` -/

/-- A `cv::Mat` seen as `rows` by `cols` pixels; `px i j` is the pixel in row `i`, column `j`. -/
structure Mat (α : Type) where
  rows : Nat
  cols : Nat
  px : Fin rows → Fin cols → α

/-- The OpenCV call `cv::transpose(src, dst)`: `dst(i, j) = src(j, i)`. -/
def transpose {α : Type} (src : Mat α) : Mat α :=
  { rows := src.cols, cols := src.rows, px := fun i j => src.px j i }

/-- The OpenCV call `cv::flip(src, dst, flipCode)`: `flipCode == 0` flips around the x-axis
(`dst(i, j) = src(rows - 1 - i, j)`), a positive code flips around the y-axis
(`dst(i, j) = src(i, cols - 1 - j)`), a negative code does both. -/
def flip {α : Type} (src : Mat α) (flipCode : Int) : Mat α :=
  if flipCode = 0 then
    { rows := src.rows, cols := src.cols, px := fun i j => src.px i.rev j }
  else if flipCode > 0 then
    { rows := src.rows, cols := src.cols, px := fun i j => src.px i j.rev }
  else
    { rows := src.rows, cols := src.cols, px := fun i j => src.px i.rev j.rev }

/-- The first block of `on_image_render`: the frame after the rotation selected by
`g_display_rotation`. -/
def applyRotation {α : Type} (rot : Int) (rgb : Mat α) : Mat α :=
  if rot = 90 then flip (transpose rgb) 1
  else if rot = 270 then flip (transpose rgb) 0
  else rgb

/-- A 2 by 3 frame with pixels numbered row by row. -/
def sampleFrame : Mat Nat :=
  { rows := 2, cols := 3, px := fun i j => 3 * i.val + j.val }

/-! ## `float` and `double` arithmetic -/

/-- The integer nearest to `n / d`, ties going to the even one. -/
def roundHalfEven (n d : Nat) : Nat :=
  let k := n / d
  let r := n % d
  if 2 * r > d ∨ (2 * r = d ∧ k % 2 = 1) then k + 1 else k

/-- A value of an IEEE 754 binary format: `finite neg m e` is `(-1)^neg * m * 2^e` (so both
zeros are there), besides the two infinities and the NaNs, of which only the sign is kept
(the sign is all that `printf` shows of a NaN). -/
inductive Fp where
  | finite (neg : Bool) (m : Nat) (e : Int)
  | inf (neg : Bool)
  | nan (neg : Bool)
  deriving DecidableEq

/-- An IEEE 754 binary format: `prec` significand bits, `emin` the exponent of the last place of
the subnormal numbers, and finite values below `2 ^ (emax + 1)`. -/
structure FpFormat where
  prec : Nat
  emin : Int
  emax : Int

/-- The format of `float`. -/
def binary32 : FpFormat := { prec := 24, emin := -149, emax := 127 }

/-- The format of `double`. -/
def binary64 : FpFormat := { prec := 53, emin := -1074, emax := 1023 }

/-- The numerator of `m * 2^e` written as a fraction of naturals. -/
def Fp.num (m : Nat) (e : Int) : Nat := if e ≥ 0 then m * 2 ^ e.toNat else m

/-- The denominator of `m * 2^e` written as a fraction of naturals. -/
def Fp.den (e : Int) : Nat := if e ≥ 0 then 1 else 2 ^ (-e).toNat

/-- The number of binary digits of `n`, found with at most `fuel` halvings (`fuel = n` is
enough). -/
def bitLength : Nat → Nat → Nat
  | 0, _ => 0
  | fuel + 1, n => if n = 0 then 0 else bitLength fuel (n / 2) + 1

/-- The integer `⌊log₂ (n / d)⌋` for positive `n` and `d`: with `k` the difference of the bit
lengths, `n / d` lies between `2 ^ (k - 1)` and `2 ^ (k + 1)`. -/
def log2Floor (n d : Nat) : Int :=
  let k : Int := (bitLength n n : Int) - (bitLength d d : Int)
  if (if k ≥ 0 then d * 2 ^ k.toNat ≤ n else d ≤ n * 2 ^ (-k).toNat) then k else k - 1

/-- The value `n / d` (with `d > 0`) of sign `neg`, rounded to the format `f` to nearest, ties
to even: the last place kept is that of a `prec`-bit significand, but not below `emin`; a
rounded value of `2 ^ (emax + 1)` or more becomes an infinity. -/
def Fp.round (f : FpFormat) (neg : Bool) (n d : Nat) : Fp :=
  if n = 0 then Fp.finite neg 0 0
  else
    let e : Int := max (log2Floor n d - ((f.prec : Int) - 1)) f.emin
    let m : Nat :=
      if e ≥ 0 then roundHalfEven n (d * 2 ^ e.toNat) else roundHalfEven (n * 2 ^ (-e).toNat) d
    if m ≠ 0 ∧ f.emax < e + (bitLength m m : Int) - 1 then Fp.inf neg else Fp.finite neg m e

/-- The comparison `x == 0` (true for both zeros). -/
def Fp.isZero : Fp → Bool
  | Fp.finite _ 0 _ => true
  | _ => false

/-- The NaN that an invalid operation (`inf - inf`, `0 / 0`, `inf / inf`) produces. Its sign is
the processor's: set on x86, as here, and clear on ARM. -/
def Fp.defaultNaN : Fp := Fp.nan true

/-- The value `-x`. -/
def Fp.neg : Fp → Fp
  | Fp.finite s m e => Fp.finite (!s) m e
  | Fp.inf s => Fp.inf (!s)
  | Fp.nan s => Fp.nan (!s)

/-- The sum `x + y` computed in the format `f`. A NaN term is the result. An exact zero sum is
`-0` only when both terms are negative. -/
def Fp.add (f : FpFormat) : Fp → Fp → Fp
  | Fp.nan s, _ => Fp.nan s
  | _, Fp.nan t => Fp.nan t
  | Fp.inf s, Fp.inf t => if s = t then Fp.inf s else Fp.defaultNaN
  | Fp.inf s, Fp.finite _ _ _ => Fp.inf s
  | Fp.finite _ _ _, Fp.inf t => Fp.inf t
  | Fp.finite s m e, Fp.finite t k g =>
    let e0 : Int := min e g
    let a : Int := (m * 2 ^ (e - e0).toNat : Nat)
    let b : Int := (k * 2 ^ (g - e0).toNat : Nat)
    let r : Int := (if s then -a else a) + (if t then -b else b)
    let sign : Bool := if r = 0 then s && t else decide (r < 0)
    Fp.round f sign (Fp.num r.natAbs e0) (Fp.den e0)

/-- The difference `x - y` computed in the format `f`. A NaN term is the result. -/
def Fp.sub (f : FpFormat) : Fp → Fp → Fp
  | Fp.nan s, _ => Fp.nan s
  | _, Fp.nan t => Fp.nan t
  | x, y => Fp.add f x y.neg

/-- The quotient `x / y` computed in the format `f`. A NaN term is the result. -/
def Fp.div (f : FpFormat) : Fp → Fp → Fp
  | Fp.nan s, _ => Fp.nan s
  | _, Fp.nan t => Fp.nan t
  | Fp.inf _, Fp.inf _ => Fp.defaultNaN
  | Fp.inf s, Fp.finite t _ _ => Fp.inf (xor s t)
  | Fp.finite s _ _, Fp.inf t => Fp.finite (xor s t) 0 0
  | Fp.finite s m e, Fp.finite t k g =>
    if k = 0 then (if m = 0 then Fp.defaultNaN else Fp.inf (xor s t))
    else Fp.round f (xor s t) (Fp.num m (e - g)) (k * Fp.den (e - g))

/-- The conversion of `x` to the format `f`. -/
def Fp.convert (f : FpFormat) : Fp → Fp
  | Fp.finite s m e => Fp.round f s (Fp.num m e) (Fp.den e)
  | x => x

/-- The value of the format `f` nearest to the rational `q`. -/
def Fp.ofRat (f : FpFormat) (q : ℚ) : Fp :=
  Fp.round f (decide (q < 0)) q.num.natAbs q.den

/-- The statement that `x` is finite, not negative, and equal to `n / d`. -/
def Fp.EqFrac (x : Fp) (n d : Nat) : Prop :=
  match x with
  | Fp.finite s m e => s = false ∧ Fp.num m e * d = n * Fp.den e
  | _ => False

instance (x : Fp) (n d : Nat) : Decidable (x.EqFrac n d) := by
  unfold Fp.EqFrac; split <;> infer_instance

/-- The statement that `x` is finite with `|x| ≤ B`. -/
def Fp.MagLe (x : Fp) (B : Nat) : Prop :=
  match x with
  | Fp.finite _ m e => Fp.num m e ≤ B * Fp.den e
  | _ => False

instance (x : Fp) (B : Nat) : Decidable (x.MagLe B) := by
  unfold Fp.MagLe; split <;> infer_instance

/-- The statement that `x` is not a negative number (a negative zero is allowed). -/
def Fp.NonNeg (x : Fp) : Prop :=
  match x with
  | Fp.finite s m _ => s = false ∨ m = 0
  | Fp.inf s => s = false
  | Fp.nan _ => False

instance (x : Fp) : Decidable x.NonNeg := by
  unfold Fp.NonNeg; split <;> infer_instance

instance (n : Nat) : OfNat Fp n := ⟨Fp.finite false n 0⟩

/-! ## `printf` conversions -/

/-- The conversion `%.<prec>f` of a `double`: for a finite value the sign (also of a negative
zero), the value rounded to `prec` decimals (exactly, ties to even), at least one digit before
the point and exactly `prec` after it; `inf`, `-inf`, `nan` and `-nan` for the others. -/
def fmtFixed (prec : Nat) : Fp → String
  | Fp.nan s => (if s then "-" else "") ++ "nan"
  | Fp.inf s => (if s then "-" else "") ++ "inf"
  | Fp.finite s m e =>
    let k := roundHalfEven (Fp.num m e * 10 ^ prec) (Fp.den e)
    let ip := k / 10 ^ prec
    let fp := Nat.repr (k % 10 ^ prec)
    (if s then "-" else "") ++ Nat.repr ip ++
      (if prec = 0 then "" else "." ++ String.mk (List.replicate (prec - fp.length) '0') ++ fp)

/-- The conversion `%d`. -/
def fmtInt (i : Int) : String := toString i

/-- An argument of a `printf` call after the default promotions: an `int` or a `double`. -/
inductive PrintfArg where
  | int (i : Int)
  | double (x : Fp)

/-- The full output of `printf` for a format made of plain characters and the conversions `%d`
and `%.<digit>f`, each taking the next argument. -/
def printfOutput : List Char → List PrintfArg → List Char
  | '%' :: 'd' :: rest, PrintfArg.int i :: args => (fmtInt i).data ++ printfOutput rest args
  | '%' :: '.' :: p :: 'f' :: rest, PrintfArg.double x :: args =>
    (fmtFixed (p.toNat - 48) x).data ++ printfOutput rest args
  | c :: rest, args => c :: printfOutput rest args
  | [], _ => []

/-- What `snprintf(buf, size, ...)` leaves in `buf` when the full output would be `full`: at
most `size - 1` characters of it. -/
def snprintf (size : Nat) (full : String) : String :=
  String.mk (full.data.take (size - 1))

/-- The number written by a string of decimal digits. -/
def decValue (cs : List Char) : Nat :=
  cs.foldl (fun acc c => 10 * acc + (c.toNat - 48)) 0

/-- The text `t` is the integer `i` in decimal: a minus sign for a negative `i`, then the
digits of `|i|`. -/
def IsIntText (i : Int) (t : String) : Prop :=
  ∃ ds : List Char, t.data = (if i < 0 then ['-'] else []) ++ ds ∧ ds ≠ [] ∧
    (∀ c ∈ ds, c.isDigit = true) ∧ decValue ds = i.natAbs

/-- The text `t` is the finite value `x` with `prec` decimals: the sign of `x`, digits, a point
and exactly `prec` digits, which read without the point give an integer `k` with `k / 10^prec`
within `1 / (2 * 10^prec)` of `|x|`. -/
def IsFixedText (prec : Nat) (x : Fp) (t : String) : Prop :=
  match x with
  | Fp.finite s m e =>
    ∃ ip fp : List Char, t.data = (if s then ['-'] else []) ++ ip ++ ['.'] ++ fp ∧
      ip ≠ [] ∧ fp.length = prec ∧ (∀ c ∈ ip ++ fp, c.isDigit = true) ∧
      2 * (decValue (ip ++ fp) * Fp.den e) ≤ 2 * (Fp.num m e * 10 ^ prec) + Fp.den e ∧
      2 * (Fp.num m e * 10 ^ prec) ≤ 2 * (decValue (ip ++ fp) * Fp.den e) + Fp.den e
  | _ => False

/-! ## The FPS overlay: `draw_fps` -/

/-- The function-local statics of `draw_fps`: `t0` is a `double`, `fps_history` an array of ten
`float`. -/
structure FpsState where
  t0 : Fp
  fps_history : List Fp
  deriving DecidableEq

/-- The initialisers `t0 = 0.f` and `fps_history[10] = {0.f}`. -/
def initFps : FpsState := { t0 := 0, fps_history := List.replicate 10 0 }

/-- The loop `for (int i = 9; i >= 1; i--) fps_history[i] = fps_history[i - 1];` followed by
`fps_history[0] = fps;`. -/
def shiftHistory (h : List Fp) (fps : Fp) : List Fp :=
  ([9, 8, 7, 6, 5, 4, 3, 2, 1].foldl (fun a i => a.set i (a.getD (i - 1) 0)) h).set 0 fps

/-- The loop `for (int i = 0; i < 10; i++) avg_fps += fps_history[i];` from `avg_fps = 0.f`,
each addition in `float`. -/
def sumHistory (h : List Fp) : Fp :=
  (List.range 10).foldl (fun acc i => Fp.add binary32 acc (h.getD i 0)) 0

/-- The rate `float fps = 1000.f / d` for a `double` difference `d`: the division is done in
`double` and its result converted to `float`. -/
def fpsOf (d : Fp) : Fp := Fp.convert binary32 (Fp.div binary64 1000 d)

/-- The moving-average block of `draw_fps`; `t1` is the time in milliseconds read by
`ncnn::get_current_time()`, which returns it as a `double`. Gives the new statics and, when the
function gets past both early `return 0`, the value of `avg_fps` (a `float`). -/
def draw_fps_avg (s : FpsState) (t1 : ℚ) : FpsState × Option Fp :=
  let t1 : Fp := Fp.ofRat binary64 t1
  if s.t0.isZero then
    ({ s with t0 := t1 }, none)
  else
    let fps := fpsOf (Fp.sub binary64 t1 s.t0)
    let h := shiftHistory s.fps_history fps
    let s1 : FpsState := { t0 := t1, fps_history := h }
    if (h.getD 9 0).isZero then (s1, none)
    else (s1, some (Fp.div binary32 (sumHistory h) 10))

/-- The function `draw_fps`: the new statics and the text drawn on the frame, if any
(`sprintf(text, "FPS=%.2f", avg_fps)`). -/
def draw_fps (s : FpsState) (t1 : ℚ) : FpsState × Option String :=
  ((draw_fps_avg s t1).1, (draw_fps_avg s t1).2.map fun avg => "FPS=" ++ fmtFixed 2 avg)

/-- The statics and the averages produced by calling `draw_fps` at each time of `ts` in turn. -/
def runFps (s : FpsState) : List ℚ → FpsState × List (Option Fp)
  | [] => (s, [])
  | t :: ts =>
    let r := draw_fps_avg s t
    let rest := runFps r.1 ts
    (rest.1, r.2 :: rest.2)

/-- The history after `k` samples of the same value `f`. -/
def filledHistory (f : Fp) (k : Nat) : List Fp :=
  List.replicate (min k 10) f ++ List.replicate (10 - min k 10) 0

/-- The average `draw_fps` computes from ten samples equal to `r`: their sum accumulated in
`float`, divided by `10.f`. -/
def mean10 (r : Fp) : Fp := Fp.div binary32 (sumHistory (List.replicate 10 r)) 10

/-- Consecutive times of `ts` are `D` apart, as `draw_fps` computes the difference (in
`double`). -/
def ConstantInterval (D : Fp) : List ℚ → Prop
  | a :: b :: rest =>
    Fp.sub binary64 (Fp.ofRat binary64 b) (Fp.ofRat binary64 a) = D ∧
      ConstantInterval D (b :: rest)
  | _ => True

instance (D : Fp) : (ts : List ℚ) → Decidable (ConstantInterval D ts)
  | [] => isTrue trivial
  | [_] => isTrue trivial
  | _ :: b :: rest =>
    have : Decidable (ConstantInterval D (b :: rest)) :=
      instDecidableConstantInterval D (b :: rest)
    inferInstanceAs (Decidable (_ ∧ _))

/-! ## Serialisation and notification in `on_image_render` -/

/-- The fields of `cv::Rect_<float>`. -/
structure Rect where
  x : Fp
  y : Fp
  width : Fp
  height : Fp
  deriving DecidableEq

/-- The fields of `Object` read by `on_image_render`; `rect` and `prob` hold `float` values. -/
structure Object where
  rect : Rect
  label : Int
  prob : Fp
  deriving DecidableEq

/-- The format string of the `snprintf` call in `on_image_render`. -/
def objectFormat : String :=
  "\x7b\"label\":%d,\"x\":%.1f,\"y\":%.1f,\"w\":%.1f,\"h\":%.1f,\"score\":%.4f\x7d"

/-- The full output of `snprintf(buf, sizeof(buf), objectFormat, label, x, y, w, h, prob)` for
one object (the `float` arguments are promoted to `double`, which changes no value). -/
def formatObject (o : Object) : String :=
  String.mk (printfOutput objectFormat.data
    [PrintfArg.int o.label, PrintfArg.double o.rect.x, PrintfArg.double o.rect.y,
      PrintfArg.double o.rect.width, PrintfArg.double o.rect.height, PrintfArg.double o.prob])

/-- The loop building `json` in `on_image_render`: from `"["`, for each index `i` append the
256-byte buffer filled by `snprintf`, then `","` when `i + 1 < objects.size()`; finally `"]"`. -/
def buildJson (objects : List Object) : String :=
  (List.range objects.length).foldl
    (fun json i =>
      let buf := match objects[i]? with
        | some o => snprintf 256 (formatObject o)
        | none => ""
      let json := json ++ buf
      if i + 1 < objects.length then json ++ "," else json)
    "[" ++ "]"

/-- One object as the interface description words it: the fields `label`, `x`, `y`, `w`, `h`,
`score` in this order, the label as an integer, the rectangle fields with one decimal and the
score with four. -/
def specObject (o : Object) : String :=
  "\x7b\"label\":" ++ fmtInt o.label ++ ",\"x\":" ++ fmtFixed 1 o.rect.x
    ++ ",\"y\":" ++ fmtFixed 1 o.rect.y ++ ",\"w\":" ++ fmtFixed 1 o.rect.width
    ++ ",\"h\":" ++ fmtFixed 1 o.rect.height ++ ",\"score\":" ++ fmtFixed 4 o.prob ++ "\x7d"

/-- The largest finite `float`, `(2^24 - 1) * 2^104`. -/
def FLT_MAX : Nat := 340282346638528859811704183484516925440

/-- An `Object` as the detector produces it: `label` is an `int`, the rectangle fields are finite
`float`s and `prob` is a confidence between 0 and 1. -/
def Object.WellFormed (o : Object) : Prop :=
  (-2147483648 ≤ o.label ∧ o.label ≤ 2147483647) ∧
  o.rect.x.MagLe FLT_MAX ∧ o.rect.y.MagLe FLT_MAX ∧ o.rect.width.MagLe FLT_MAX ∧
  o.rect.height.MagLe FLT_MAX ∧ (o.prob.NonNeg ∧ o.prob.MagLe 1)

instance (o : Object) : Decidable o.WellFormed := by
  unfold Object.WellFormed; infer_instance

/-- The object of the example in the interface description: label 3, score `0.8765f` (the
`float` nearest to 0.8765), rect x=1, y=2, w=30, h=40. -/
def exampleObject : Object :=
  { rect := { x := 1, y := 2, width := 30, height := 40 }, label := 3,
    prob := Fp.round binary32 false 8765 10000 }

/-- An object outside the detector's range: every `float` field is `-FLT_MAX` and the label is
`INT_MIN`. -/
def extremeObject : Object :=
  { rect := { x := Fp.finite true 16777215 104, y := Fp.finite true 16777215 104,
              width := Fp.finite true 16777215 104, height := Fp.finite true 16777215 104 },
    label := -2147483648, prob := Fp.finite true 16777215 104 }

/-- The return code `JNI_EDETACHED`. -/
def JNI_EDETACHED : Int := -2

/-- What the Java VM answers during one call of `on_image_render`: the return code of `GetEnv`
and the pointer it stores in `env`, the same for `AttachCurrentThread`, and the results of
`GetObjectClass` and `GetStaticMethodID` (`none` is a null pointer). -/
structure JavaVM where
  getEnv : Int × Option Nat
  attachCurrentThread : Int × Option Nat
  getObjectClass : Option Nat
  getStaticMethodID : Option Nat
  deriving DecidableEq

/-- The JNI contract of `AttachCurrentThread`: when it returns 0 it has stored a valid
`JNIEnv` pointer. -/
def JavaVM.AttachContract (vm : JavaVM) : Prop :=
  vm.attachCurrentThread.1 = 0 → vm.attachCurrentThread.2.isSome = true

instance (vm : JavaVM) : Decidable vm.AttachContract := by
  unfold JavaVM.AttachContract; infer_instance

/-- A VM whose `GetEnv` answers `JNI_EDETACHED` and whose `AttachCurrentThread` succeeds, but
on which the method lookup fails. -/
def sampleVM : JavaVM :=
  { getEnv := (JNI_EDETACHED, none), attachCurrentThread := (0, some 7),
    getObjectClass := some 11, getStaticMethodID := none }

/-- The calls `on_image_render` makes, in program order. -/
inductive RenderEvent where
  | detect
  | draw (count : Nat)
  | draw_unsupported
  | getEnv
  | attachCurrentThread (code : Int)
  | getObjectClass
  | getStaticMethodID
  | newStringUTF (json : String)
  | callStaticVoidMethod (cls mid : Nat) (json : String)
  | deleteLocalRefString
  | deleteLocalRefClass
  | detachCurrentThread
  | draw_fps (text : Option String)
  deriving DecidableEq

/-- Lines 177 to 211 of `on_image_render`: obtain a `JNIEnv`, attaching the thread if `GetEnv`
answers `JNI_EDETACHED`; call `pushDetectionsToScripts` on the class of the registered activity;
detach if this call attached. -/
def notifyStep (vm : JavaVM) (g_main_activity_global : Option Nat) (json : String) :
    List RenderEvent :=
  -- JNIEnv* env = nullptr; bool attached = false;
  let (ev1, env, attached) : List RenderEvent × Option Nat × Bool :=
    if vm.getEnv.1 = JNI_EDETACHED then
      if vm.attachCurrentThread.1 = 0 then
        ([RenderEvent.getEnv, RenderEvent.attachCurrentThread vm.attachCurrentThread.1],
          vm.attachCurrentThread.2, true)
      else
        ([RenderEvent.getEnv, RenderEvent.attachCurrentThread vm.attachCurrentThread.1],
          none, false)
    else ([RenderEvent.getEnv], vm.getEnv.2, false)
  let ev2 : List RenderEvent :=
    if env.isSome && g_main_activity_global.isSome then
      match vm.getObjectClass with
      | some cls =>
        [RenderEvent.getObjectClass, RenderEvent.getStaticMethodID] ++
          (match vm.getStaticMethodID with
            | some mid =>
              [RenderEvent.newStringUTF json, RenderEvent.callStaticVoidMethod cls mid json,
                RenderEvent.deleteLocalRefString]
            | none => []) ++
          [RenderEvent.deleteLocalRefClass]
      | none => [RenderEvent.getObjectClass]
    else []
  let ev3 : List RenderEvent :=
    if env.isSome && attached then [RenderEvent.detachCurrentThread] else []
  ev1 ++ ev2 ++ ev3

/-- The globals and statics read by `on_image_render`. -/
structure RenderState where
  g_display_rotation : Int
  g_yolo11 : Option Worker
  g_jvm_global : Option JavaVM
  g_main_activity_global : Option Nat
  fps : FpsState

/-- The result of one `on_image_render` call: the frame after the rotation step, the calls made
and the statics of `draw_fps`. -/
structure RenderResult (α : Type) where
  frame : Mat α
  events : List RenderEvent
  fps : FpsState

/-- The function `MyNdkCamera::on_image_render`. `detect` is the result of `g_yolo11->detect`
on the rotated frame and `t1` the time read by `draw_fps`. -/
def on_image_render {α : Type} (s : RenderState) (detect : Mat α → List Object) (t1 : ℚ)
    (rgb : Mat α) : RenderResult α :=
  let rgb := applyRotation s.g_display_rotation rgb
  let ev : List RenderEvent :=
    if s.g_yolo11.isSome then
      let objects := detect rgb
      [RenderEvent.detect, RenderEvent.draw objects.length] ++
        (match s.g_jvm_global with
          | some vm =>
            if !objects.isEmpty then
              notifyStep vm s.g_main_activity_global (buildJson objects)
            else []
          | none => [])
    else [RenderEvent.draw_unsupported]
  let f := draw_fps s.fps t1
  { frame := rgb, events := ev ++ [RenderEvent.draw_fps f.2], fps := f.1 }

/-- The number of `CallStaticVoidMethod` calls in a trace. -/
def countCallbacks (evs : List RenderEvent) : Nat :=
  evs.countP fun e => match e with
    | .callStaticVoidMethod _ _ _ => true
    | _ => false

/-- The number of `DetachCurrentThread` calls in a trace. -/
def countDetach (evs : List RenderEvent) : Nat :=
  evs.count RenderEvent.detachCurrentThread

/-- The number of `AttachCurrentThread` calls in a trace that returned 0. -/
def countAttachOk (evs : List RenderEvent) : Nat :=
  evs.count (RenderEvent.attachCurrentThread 0)

/-! # Theorems -/

/-! ## Worker manager: lemmas -/

theorem outOfRange_eq_false_iff (t m c : Int) :
    outOfRange t m c = false ↔ (0 ≤ t ∧ t ≤ 4) ∧ (0 ≤ m ∧ m ≤ 8) ∧ (0 ≤ c ∧ c ≤ 2) := by
  simp only [outOfRange, Bool.or_eq_false_iff, decide_eq_false_iff_not, not_lt, gt_iff_lt]
  tauto

theorem outOfRange_eq_true_iff (t m c : Int) :
    outOfRange t m c = true ↔ (t < 0 ∨ t > 4 ∨ m < 0 ∨ m > 8 ∨ c < 0 ∨ c > 2) := by
  simp only [outOfRange, Bool.or_eq_true, decide_eq_true_eq]
  tauto

theorem modeltypes_tmod (m : Int) (h0 : 0 ≤ m) (h8 : m ≤ 8) :
    modeltypes.getD m.toNat "" = ["n", "s", "m"].getD (m % 3).toNat "" := by
  interval_cases m <;> rfl

theorem runLoads_append (s : Manager) (p : List Request) (r : Request) :
    runLoads s (p ++ [r]) = (loadModel (runLoads s p) r.1 r.2.1 r.2.2).state := by
  simp [runLoads, List.foldl_append]

/-- After an in-range call the statics hold the call's selectors and a worker exists. -/
theorem loadModel_inRange_state (s : Manager) (t m c : Int) (h : outOfRange t m c = false) :
    (loadModel s t m c).ret = true ∧
    (loadModel s t m c).state.old_taskid = t ∧
    (loadModel s t m c).state.old_modelid = m.tmod 3 ∧
    (loadModel s t m c).state.old_cpugpu = c ∧
    (loadModel s t m c).state.g_yolo11.isSome = true := by
  simp [loadModel, h]

/-- Claim C1: a `loadModel` call with `taskid` outside 0..4, or `modelid` outside 0..8, or
`cpugpu` outside 0..2 returns false, makes no library call, and leaves the whole manager state
as it was: the worker (with its target size), the three remembered selectors and the GPU
instance. -/
theorem loadModel_out_of_range (s : Manager) (taskid modelid cpugpu : Int)
    (h : (taskid < 0 ∨ taskid > 4) ∨ (modelid < 0 ∨ modelid > 8) ∨ (cpugpu < 0 ∨ cpugpu > 2)) :
    (loadModel s taskid modelid cpugpu).ret = false ∧
    (loadModel s taskid modelid cpugpu).events = [] ∧
    (loadModel s taskid modelid cpugpu).state = s ∧
    (loadModel s taskid modelid cpugpu).state.g_yolo11 = s.g_yolo11 ∧
    (loadModel s taskid modelid cpugpu).state.old_taskid = s.old_taskid ∧
    (loadModel s taskid modelid cpugpu).state.old_modelid = s.old_modelid ∧
    (loadModel s taskid modelid cpugpu).state.old_cpugpu = s.old_cpugpu ∧
    (loadModel s taskid modelid cpugpu).state.gpu = s.gpu := by
  have ho : outOfRange taskid modelid cpugpu = true := by
    rw [outOfRange_eq_true_iff]; tauto
  simp [loadModel, ho]

theorem loadModel_out_of_range_witness :
    (loadModel (loadModel initManager 1 4 2).state 5 0 0).ret = false ∧
    (loadModel (loadModel initManager 1 4 2).state 0 (-1) 0).state
      = (loadModel initManager 1 4 2).state ∧
    (loadModel (loadModel initManager 1 4 2).state 0 0 3).state.g_yolo11
      = some { ident := 2, task := 1, parampath := "yolo11s_seg.ncnn.param",
               modelpath := "yolo11s_seg.ncnn.bin", useVulkan := true, gpuInstance := some 1,
               targetSize := 480 } :=
  ⟨(loadModel_out_of_range _ 5 0 0 (by decide)).1,
   (loadModel_out_of_range _ 0 (-1) 0 (by decide)).2.2.1,
   (loadModel_out_of_range _ 0 0 3 (by decide)).2.2.2.1.trans (by decide)⟩

theorem changed_iff_differs (s : Manager) (r q : Request)
    (h1 : s.old_taskid = q.1) (h2 : s.old_modelid = q.2.1.tmod 3) (h3 : s.old_cpugpu = q.2.2) :
    changed s r.1 r.2.1 r.2.2 = true ↔ r.differs q := by
  simp [changed, Request.differs, h1, h2, h3, or_assoc]

/-- Claim C2: in a run of in-range `loadModel` calls from the initial state, a call `r` that
follows a call `q` destroys the worker exactly when one of `taskid`, `modelid % 3`, `cpugpu`
differs between `r` and `q`, and constructs a worker exactly in the same case; a call that
repeats these three values leaves the same worker object in place (only its target size is
set again). -/
theorem loadModel_rebuild_iff (p : List Request) (q r : Request)
    (hq : q.inRange) (hr : r.inRange) :
    let s := runLoads initManager (p ++ [q])
    let res := loadModel s r.1 r.2.1 r.2.2
    (res.destroyed = true ↔ r.differs q) ∧
    (res.constructed = true ↔ r.differs q) ∧
    (¬ r.differs q → ∃ w, s.g_yolo11 = some w ∧
      res.state.g_yolo11 = some { w with targetSize := target_size r.2.1 }) := by
  intro s res
  have hs := loadModel_inRange_state (runLoads initManager p) q.1 q.2.1 q.2.2 hq
  rw [← runLoads_append] at hs
  obtain ⟨-, h1, h2, h3, h4⟩ := hs
  change s.old_taskid = _ at h1
  change s.old_modelid = _ at h2
  change s.old_cpugpu = _ at h3
  change s.g_yolo11.isSome = true at h4
  have hc := changed_iff_differs s r q h1 h2 h3
  obtain ⟨w, hw⟩ := Option.isSome_iff_exists.mp h4
  have hr2 : outOfRange r.1 r.2.1 r.2.2 = false := hr
  by_cases hd : r.differs q
  · have hc2 : changed s r.1 r.2.1 r.2.2 = true := hc.mpr hd
    simp only [hd, iff_true, not_true_eq_false, false_implies, and_true]
    constructor
    · simp only [res, LoadResult.destroyed, loadModel, hr2, hc2, hw]
      simp
    · simp only [res, LoadResult.constructed, loadModel, hr2, hc2, hw]
      simp
  · have hc2 : changed s r.1 r.2.1 r.2.2 = false := by
      rw [← Bool.not_eq_true, hc]; exact hd
    simp only [hd, iff_false, not_false_eq_true, true_implies, Bool.not_eq_true]
    refine ⟨?_, ?_, w, hw, ?_⟩
    · simp only [res, LoadResult.destroyed, loadModel, hr2, hc2, hw]
      cases s.gpu <;> by_cases hc2 : r.2.2 = 2 <;> by_cases hc1 : r.2.2 = 1 <;> simp [hc1, hc2]
    · simp only [res, LoadResult.constructed, loadModel, hr2, hc2, hw]
      cases s.gpu <;> by_cases hc2 : r.2.2 = 2 <;> by_cases hc1 : r.2.2 = 1 <;> simp [hc1, hc2]
    · simp only [res, loadModel, hr2, hc2, hw]
      simp

theorem loadModel_rebuild_iff_witness :
    ((loadModel (runLoads initManager ([(0, 0, 0)] ++ [(1, 4, 2)])) 1 7 2).constructed = true
        ↔ Request.differs (1, 7, 2) (1, 4, 2)) ∧
    ((loadModel (runLoads initManager ([(0, 0, 0)] ++ [(1, 4, 2)])) 1 5 2).constructed = true
        ↔ Request.differs (1, 5, 2) (1, 4, 2)) ∧
    ¬ Request.differs (1, 7, 2) (1, 4, 2) ∧ Request.differs (1, 5, 2) (1, 4, 2) :=
  ⟨(loadModel_rebuild_iff [(0, 0, 0)] (1, 4, 2) (1, 7, 2) (by decide) (by decide)).2.1,
   (loadModel_rebuild_iff [(0, 0, 0)] (1, 4, 2) (1, 5, 2) (by decide) (by decide)).2.1,
   by decide, by decide⟩

/-- The file names given to a worker depend on `modelid` only through `modelid % 3`. -/
theorem parampath_tmod (t m : Int) (h0 : 0 ≤ m) (h8 : m ≤ 8) :
    parampath t (m.tmod 3) = parampath t m ∧ modelpath t (m.tmod 3) = modelpath t m := by
  interval_cases m <;> exact ⟨rfl, rfl⟩

theorem coherent_init : Coherent initManager := by
  intro w hw; simp [initManager] at hw

theorem coherent_loadModel (s : Manager) (t m c : Int) (hs : Coherent s) :
    Coherent (loadModel s t m c).state := by
  by_cases ho : outOfRange t m c = true
  · simpa [loadModel, ho] using hs
  · have ho2 : outOfRange t m c = false := by simpa using ho
    obtain ⟨-, ⟨hm0, hm8⟩, -⟩ := (outOfRange_eq_false_iff t m c).mp ho2
    obtain ⟨hp, hq⟩ := parampath_tmod t m hm0 hm8
    obtain ⟨-, o1, o2, -, -⟩ := loadModel_inRange_state s t m c ho2
    intro w hw
    rw [o1, o2, hp, hq]
    by_cases hc : changed s t m c = true
    · simp only [loadModel, ho2, hc] at hw
      simp at hw
      subst hw
      simp
    · have hc2 : changed s t m c = false := by simpa using hc
      simp only [changed, Bool.or_eq_false_iff, decide_eq_false_iff_not, not_not] at hc2
      obtain ⟨⟨e1, e2⟩, e3⟩ := hc2
      cases hg : s.g_yolo11 with
      | none =>
        simp only [loadModel, ho2, hc, hg] at hw
        simp at hw
        subst hw
        simp
      | some w0 =>
        obtain ⟨a1, a2, a3⟩ := hs w0 hg
        simp only [loadModel, ho2, hc, hg] at hw
        simp at hw
        subst hw
        simp [a1, a2, a3, ← e1, ← e2, hp, hq]

theorem coherent_runLoads (rs : List Request) : Coherent (runLoads initManager rs) := by
  induction rs using List.reverseRecOn with
  | nil => exact coherent_init
  | append_singleton p r ih => rw [runLoads_append]; exact coherent_loadModel _ _ _ _ ih

/-- Claim C10: after any run of `loadModel` calls from the initial state, an in-range call
returns true and leaves a worker whose target size is 320 for `modelid` in 0..2, 480 for 3..5
and 640 for 6..8, whether or not the worker was rebuilt; `modeltypes[modelid]` is `n`, `s` or
`m` according to `modelid % 3`, and the worker was loaded from the files named with that
letter and the suffix of the task. -/
theorem loadModel_target_size_and_variant (rs : List Request) (taskid modelid cpugpu : Int)
    (ht : 0 ≤ taskid ∧ taskid ≤ 4) (hm : 0 ≤ modelid ∧ modelid ≤ 8)
    (hc : 0 ≤ cpugpu ∧ cpugpu ≤ 2) :
    let res := loadModel (runLoads initManager rs) taskid modelid cpugpu
    let sub := ["n", "s", "m"].getD (modelid % 3).toNat ""
    res.ret = true ∧
    ∃ w, res.state.g_yolo11 = some w ∧
      w.targetSize = (if modelid ≤ 2 then 320 else if modelid ≤ 5 then 480 else 640) ∧
      LoadEvent.setTargetSize w.ident w.targetSize ∈ res.events ∧
      modeltypes.getD modelid.toNat "" = sub ∧
      w.parampath = "yolo11" ++ sub ++ tasknames.getD taskid.toNat "" ++ ".ncnn.param" ∧
      w.modelpath = "yolo11" ++ sub ++ tasknames.getD taskid.toNat "" ++ ".ncnn.bin" := by
  intro res sub
  have ho : outOfRange taskid modelid cpugpu = false := by
    rw [outOfRange_eq_false_iff]; exact ⟨ht, hm, hc⟩
  have hst := loadModel_inRange_state (runLoads initManager rs) taskid modelid cpugpu ho
  obtain ⟨hret, h1, h2, -, h4⟩ := hst
  obtain ⟨w, hw⟩ := Option.isSome_iff_exists.mp h4
  have hcoh := coherent_loadModel _ taskid modelid cpugpu (coherent_runLoads rs) w hw
  rw [h1, h2, (parampath_tmod taskid modelid hm.1 hm.2).1,
    (parampath_tmod taskid modelid hm.1 hm.2).2] at hcoh
  have hsub : modeltypes.getD modelid.toNat "" = sub := modeltypes_tmod modelid hm.1 hm.2
  refine ⟨hret, w, hw, ?_, ?_, hsub, ?_, ?_⟩
  · have : w.targetSize = target_size modelid := by
      simp only [loadModel, ho] at hw
      simp at hw
      rw [← hw]
    rw [this]
    obtain ⟨h0, h8⟩ := hm
    interval_cases modelid <;> rfl
  · have : w.targetSize = target_size modelid ∧
        res.events.getLast? = some (LoadEvent.setTargetSize w.ident (target_size modelid)) := by
      simp only [res, loadModel, ho] at hw ⊢
      simp at hw
      simp [← hw]
    rw [this.1]
    exact List.mem_of_getLast?_eq_some this.2
  · rw [hcoh.2.1, parampath, hsub]
  · rw [hcoh.2.2, modelpath, hsub]

theorem loadModel_target_size_and_variant_witness :
    (loadModel (runLoads initManager [(2, 1, 0)]) 2 7 0).ret = true ∧
    ∃ w, (loadModel (runLoads initManager [(2, 1, 0)]) 2 7 0).state.g_yolo11 = some w ∧
      w.targetSize = 640 ∧ w.parampath = "yolo11s_pose.ncnn.param" := by
  obtain ⟨h, w, hw, hsz, -, -, hp, -⟩ :=
    loadModel_target_size_and_variant [(2, 1, 0)] 2 7 0 (by decide) (by decide) (by decide)
  exact ⟨h, w, hw, hsz, hp⟩

/-- Claim C9, counterexample: after `loadModel(0, 0, 1)` the call `loadModel(1, 0, 1)` has the
same backend selector as the last applied configuration, yet it destroys GPU instance 1 and
creates GPU instance 3. -/
theorem loadModel_gpu_teardown_same_backend :
    let s := runLoads initManager [(0, 0, 1)]
    let res := loadModel s 1 0 1
    s.old_cpugpu = 1 ∧ s.gpu = some { ident := 1, driver := none } ∧
    res.ret = true ∧ LoadEvent.destroyGpu 1 ∈ res.events ∧
    LoadEvent.createGpu 3 none ∈ res.events ∧
    res.state.gpu = some { ident := 3, driver := none } := by
  decide

/-- Claim C9, amended: an in-range `loadModel` call that builds a worker, because `taskid`,
`modelid % 3` or `cpugpu` differs from the remembered configuration (any of the three, not only
the backend) or because there is no worker yet, first deletes the old worker if there is one,
then destroys the GPU instance, then creates a new instance when `cpugpu` is 1 or 2 (the
vendor driver for 2) and none when it is 0, and only then constructs and loads the new worker,
which is therefore bound to the instance the call leaves in place. -/
theorem loadModel_rebuild_recreates_gpu (s : Manager) (taskid modelid cpugpu : Int)
    (ht : 0 ≤ taskid ∧ taskid ≤ 4) (hm : 0 ≤ modelid ∧ modelid ≤ 8)
    (hc : 0 ≤ cpugpu ∧ cpugpu ≤ 2)
    (hch : changed s taskid modelid cpugpu = true ∨ s.g_yolo11 = none) :
    let res := loadModel s taskid modelid cpugpu
    res.state.gpu =
      (if cpugpu = 2 then some { ident := s.fresh, driver := some "libvulkan_freedreno.so" }
       else if cpugpu = 1 then some { ident := s.fresh, driver := none }
       else none) ∧
    ∃ w, res.state.g_yolo11 = some w ∧
      res.events =
        s.g_yolo11.toList.map (fun old => LoadEvent.deleteWorker old.ident) ++
        s.gpu.toList.map (fun g => LoadEvent.destroyGpu g.ident) ++
        res.state.gpu.toList.map (fun g => LoadEvent.createGpu g.ident g.driver) ++
        [LoadEvent.newWorker w.ident taskid,
         LoadEvent.load w.ident (parampath taskid modelid) (modelpath taskid modelid) w.useVulkan,
         LoadEvent.setTargetSize w.ident (target_size modelid)] ∧
      w.useVulkan = (decide (cpugpu = 1) || decide (cpugpu = 2)) ∧
      w.gpuInstance = res.state.gpu.map GpuInstance.ident := by
  intro res
  have ho : outOfRange taskid modelid cpugpu = false := by
    rw [outOfRange_eq_false_iff]; exact ⟨ht, hm, hc⟩
  obtain ⟨c0, c2⟩ := hc
  refine ⟨?_, ?_⟩
  · simp only [res, loadModel, ho]
    interval_cases cpugpu <;> simp
  · rcases hch with hch | hch
    · simp only [res, loadModel, ho, hch]
      cases s.gpu <;> cases s.g_yolo11 <;> interval_cases cpugpu <;> simp
    · simp only [res, loadModel, ho, hch]
      cases s.gpu <;> cases changed s taskid modelid cpugpu <;> interval_cases cpugpu <;> simp

theorem loadModel_rebuild_recreates_gpu_witness :
    changed (runLoads initManager [(0, 0, 1)]) 1 0 2 = true ∧
    (loadModel (runLoads initManager [(0, 0, 1)]) 1 0 2).state.gpu
      = some { ident := 3, driver := some "libvulkan_freedreno.so" } ∧
    ∃ w, (loadModel (runLoads initManager [(0, 0, 1)]) 1 0 2).state.g_yolo11 = some w ∧
      w.gpuInstance = some 3 := by
  obtain ⟨hg, w, hw, -, -, hi⟩ :=
    loadModel_rebuild_recreates_gpu (runLoads initManager [(0, 0, 1)]) 1 0 2
      (by decide) (by decide) (by decide) (Or.inl (by decide))
  exact ⟨by decide, hg, w, hw, by rw [hi, hg]; rfl⟩

/-- A repeated GPU configuration: `loadModel(0, 0, 1)` twice. The second call builds no worker
and keeps the one loaded on GPU instance 1, while instance 1 is destroyed and instance 3
created. -/
theorem loadModel_kept_worker_dangling :
    let s := runLoads initManager [(0, 0, 1)]
    let res := loadModel s 0 0 1
    res.constructed = false ∧
    (s.g_yolo11.map Worker.gpuInstance = some (some 1)) ∧
    (res.state.g_yolo11.map Worker.gpuInstance = some (some 1)) ∧
    LoadEvent.destroyGpu 1 ∈ res.events ∧
    res.state.gpu = some { ident := 3, driver := none } := by
  decide

/-! ## Display orientation -/

/-- The two lines `int d = degrees % 360; if (d < 0) d += 360;` compute the mathematical
residue of `degrees` modulo 360. -/
theorem normalise_eq_emod (degrees : Int) :
    (if degrees.tmod 360 < 0 then degrees.tmod 360 + 360 else degrees.tmod 360) = degrees % 360 := by
  cases degrees with
  | ofNat m =>
    have h : (Int.ofNat m).tmod 360 = ((m % 360 : Nat) : Int) := rfl
    rw [h]
    have h2 : Int.ofNat m = (m : Int) := rfl
    rw [h2]
    split_ifs <;> omega
  | negSucc m =>
    have h : (Int.negSucc m).tmod 360 = -(((m + 1) % 360 : Nat) : Int) := rfl
    rw [h]
    have h2 : Int.negSucc m = -((m : Int) + 1) := rfl
    rw [h2]
    split_ifs <;> omega

theorem setDisplayOrientation_eq (s degrees : Int) :
    setDisplayOrientation s degrees =
      if degrees % 360 = 0 ∨ degrees % 360 = 90 ∨ degrees % 360 = 180 ∨ degrees % 360 = 270
      then degrees % 360 else s := by
  simp only [setDisplayOrientation]
  rw [normalise_eq_emod]

theorem setDisplayOrientation_canonical (s degrees : Int)
    (hs : s = 0 ∨ s = 90 ∨ s = 180 ∨ s = 270) :
    setDisplayOrientation s degrees = 0 ∨ setDisplayOrientation s degrees = 90 ∨
    setDisplayOrientation s degrees = 180 ∨ setDisplayOrientation s degrees = 270 := by
  rw [setDisplayOrientation_eq]
  split_ifs with h
  · exact h
  · exact hs

theorem runOrientation_canonical (calls : List Int) :
    runOrientation calls = 0 ∨ runOrientation calls = 90 ∨
    runOrientation calls = 180 ∨ runOrientation calls = 270 := by
  induction calls using List.reverseRecOn with
  | nil => left; rfl
  | append_singleton p d ih =>
    have : runOrientation (p ++ [d]) = setDisplayOrientation (runOrientation p) d := by
      simp [runOrientation, List.foldl_append]
    rw [this]
    exact setDisplayOrientation_canonical _ _ ih

/-- Claim C4: for every integer `degrees`, `setDisplayOrientation` works with
`n = degrees mod 360` taken in `[0, 360)` (so -90 gives 270 and -360 gives 0); it stores `n`
when `n` is 0, 90, 180 or 270 and leaves the stored orientation unchanged otherwise. Hence
after any sequence of setter calls from the initial orientation 0 the stored orientation is
0, 90, 180 or 270. -/
theorem setDisplayOrientation_normalises (s degrees : Int) (calls : List Int) :
    (0 ≤ degrees % 360 ∧ degrees % 360 < 360) ∧
    (degrees % 360 ∈ [0, 90, 180, 270] → setDisplayOrientation s degrees = degrees % 360) ∧
    (degrees % 360 ∉ [0, 90, 180, 270] → setDisplayOrientation s degrees = s) ∧
    setDisplayOrientation s (-90) = 270 ∧ setDisplayOrientation s (-360) = 0 ∧
    runOrientation calls ∈ [0, 90, 180, 270] := by
  refine ⟨⟨by omega, by omega⟩, ?_, ?_, ?_, ?_, ?_⟩
  · intro h
    rw [setDisplayOrientation_eq, if_pos (by simpa using h)]
  · intro h
    rw [setDisplayOrientation_eq, if_neg (by simpa using h)]
  · rw [setDisplayOrientation_eq]; rfl
  · rw [setDisplayOrientation_eq]; rfl
  · simpa using runOrientation_canonical calls

theorem setDisplayOrientation_normalises_witness :
    setDisplayOrientation 90 (-450) = 270 ∧ setDisplayOrientation 90 45 = 90 ∧
    runOrientation [90, 45, -90, 100] = 270 :=
  ⟨((setDisplayOrientation_normalises 90 (-450) []).2.1 (by decide)).trans (by decide),
   (setDisplayOrientation_normalises 90 45 []).2.2.1 (by decide),
   by decide⟩

/-! ## Rotation -/

/-- The step for 90 followed by the step for 270 moves every pixel back to where it was. -/
theorem flip0_transpose_flip1_transpose {α : Type} (rgb : Mat α) :
    flip (transpose (flip (transpose rgb) 1)) 0 = rgb := by
  cases rgb with
  | mk rows cols px =>
    simp [flip, transpose, Fin.rev_rev]

/-- Claim C5: for a frame of any dimensions, the rotation step for 90 is transpose followed by
a flip around the vertical axis and swaps the dimensions, the step for 270 is transpose
followed by a flip around the horizontal axis, and the step for 270 applied to the result of
the step for 90 gives back the original frame, dimensions and pixels; the steps for 0 and for
180 return the frame unchanged. -/
theorem applyRotation_roundtrip {α : Type} (rgb : Mat α) :
    applyRotation 90 rgb = flip (transpose rgb) 1 ∧
    applyRotation 270 rgb = flip (transpose rgb) 0 ∧
    (applyRotation 90 rgb).rows = rgb.cols ∧ (applyRotation 90 rgb).cols = rgb.rows ∧
    applyRotation 270 (applyRotation 90 rgb) = rgb ∧
    (applyRotation 270 (applyRotation 90 rgb)).rows = rgb.rows ∧
    (applyRotation 270 (applyRotation 90 rgb)).cols = rgb.cols ∧
    applyRotation 0 rgb = rgb ∧ applyRotation 180 rgb = rgb := by
  have h90 : applyRotation 90 rgb = flip (transpose rgb) 1 := by simp [applyRotation]
  have h270 : ∀ m : Mat α, applyRotation 270 m = flip (transpose m) 0 := by
    intro m; simp [applyRotation]
  have hrt : applyRotation 270 (applyRotation 90 rgb) = rgb := by
    rw [h90, h270, flip0_transpose_flip1_transpose]
  refine ⟨h90, h270 rgb, ?_, ?_, hrt, ?_, ?_, ?_, ?_⟩
  · rw [h90]; simp [flip, transpose]
  · rw [h90]; simp [flip, transpose]
  · rw [hrt]
  · rw [hrt]
  · simp [applyRotation]
  · simp [applyRotation]

theorem applyRotation_roundtrip_witness :
    applyRotation 270 (applyRotation 90 sampleFrame) = sampleFrame ∧
    (applyRotation 90 sampleFrame).rows = 3 ∧ (applyRotation 90 sampleFrame).cols = 2 :=
  ⟨(applyRotation_roundtrip sampleFrame).2.2.2.2.1,
   (applyRotation_roundtrip sampleFrame).2.2.1,
   (applyRotation_roundtrip sampleFrame).2.2.2.1⟩

/-- The step for 90 on the sample frame `[[0, 1, 2], [3, 4, 5]]` is its clockwise quarter
turn. -/
theorem applyRotation_sample :
    (List.finRange 3).map
        (fun i => (List.finRange 2).map fun j => (applyRotation 90 sampleFrame).px i j)
      = [[3, 0], [4, 1], [5, 2]] := by
  decide

/-! ## FPS overlay -/

theorem shiftHistory_eq (h : List Fp) (fps : Fp) (hlen : h.length = 10) :
    shiftHistory h fps = fps :: h.take 9 := by
  rcases h with _ | ⟨a0, _ | ⟨a1, _ | ⟨a2, _ | ⟨a3, _ | ⟨a4, _ | ⟨a5, _ | ⟨a6, _ | ⟨a7,
    _ | ⟨a8, _ | ⟨a9, _ | ⟨a10, t⟩⟩⟩⟩⟩⟩⟩⟩⟩⟩⟩ <;> simp at hlen
  simp [shiftHistory]

theorem filledHistory_length (f : Fp) (k : Nat) : (filledHistory f k).length = 10 := by
  simp [filledHistory]

theorem filledHistory_succ (f : Fp) (k : Nat) :
    f :: (filledHistory f k).take 9 = filledHistory f (k + 1) := by
  by_cases hk : k < 10
  · interval_cases k <;> simp [filledHistory, List.replicate]
  · have h1 : min k 10 = 10 := by omega
    have h2 : min (k + 1) 10 = 10 := by omega
    simp [filledHistory, h1, h2, List.replicate]

theorem filledHistory_last (f : Fp) (k : Nat) :
    (filledHistory f k).getD 9 0 = if k < 10 then 0 else f := by
  by_cases hk : k < 10
  · interval_cases k <;> simp [filledHistory, List.replicate]
  · have h1 : min k 10 = 10 := by omega
    simp [filledHistory, h1, List.replicate, hk]

theorem filledHistory_full (f : Fp) (k : Nat) (hk : 10 ≤ k) :
    filledHistory f k = List.replicate 10 f := by
  have h1 : min k 10 = 10 := by omega
  simp [filledHistory, h1]

/-- One call of the averaging block when the previous call was `D` earlier, the rate of `D` is
`r`, not 0, and the history holds `j` samples `r`. -/
theorem draw_fps_avg_step (a b : ℚ) (D : Fp) (j : Nat)
    (ha : (Fp.ofRat binary64 a).isZero = false)
    (hD : Fp.sub binary64 (Fp.ofRat binary64 b) (Fp.ofRat binary64 a) = D)
    (hr : (fpsOf D).isZero = false) :
    draw_fps_avg { t0 := Fp.ofRat binary64 a, fps_history := filledHistory (fpsOf D) j } b =
      ({ t0 := Fp.ofRat binary64 b, fps_history := filledHistory (fpsOf D) (j + 1) },
        if j + 1 < 10 then none else some (mean10 (fpsOf D))) := by
  have hz : (0 : Fp).isZero = true := rfl
  simp only [draw_fps_avg, ha, hD, Bool.false_eq_true, if_false]
  rw [shiftHistory_eq _ _ (filledHistory_length _ _), filledHistory_succ, filledHistory_last]
  by_cases hk : j + 1 < 10
  · simp [hk, hz]
  · simp only [hk, if_false, hr, Bool.false_eq_true]
    rw [filledHistory_full _ _ (by omega)]
    rfl

/-- The run from a state that holds a previous time `a`, not 0, and `j` samples. -/
theorem runFps_warm (D : Fp) (hr : (fpsOf D).isZero = false) (ts : List ℚ) :
    ∀ (a : ℚ) (j : Nat), (Fp.ofRat binary64 a).isZero = false →
      ConstantInterval D (a :: ts) →
      (∀ t ∈ ts, (Fp.ofRat binary64 t).isZero = false) →
      (runFps { t0 := Fp.ofRat binary64 a, fps_history := filledHistory (fpsOf D) j } ts).2 =
        (List.range ts.length).map fun i =>
          if j + i + 1 < 10 then none else some (mean10 (fpsOf D)) := by
  induction ts with
  | nil => intro a j _ _ _; simp [runFps]
  | cons b ts ih =>
    intro a j ha hch hnz
    have hch : Fp.sub binary64 (Fp.ofRat binary64 b) (Fp.ofRat binary64 a) = D ∧
        ConstantInterval D (b :: ts) := hch
    have hb : (Fp.ofRat binary64 b).isZero = false := hnz b (List.mem_cons_self _ _)
    have hstep := draw_fps_avg_step a b D j ha hch.1 hr
    simp only [runFps, hstep]
    rw [ih b (j + 1) hb hch.2 (fun t ht => hnz t (List.mem_cons_of_mem _ ht))]
    rw [List.length_cons, List.range_succ_eq_map, List.map_cons, List.map_map]
    simp only [Nat.add_zero, List.cons.injEq, true_and]
    refine List.map_congr_left ?_
    intro i _
    have hi : (j + 1 + i + 1 < 10) = (j + (i + 1) + 1 < 10) := by
      simp only [eq_iff_iff]; omega
    simp only [Function.comp, Nat.succ_eq_add_one, hi]

/-- The run from the initial statics. -/
theorem runFps_init (a : ℚ) (rest : List ℚ) (D : Fp)
    (hD : ConstantInterval D (a :: rest))
    (hnz : ∀ t ∈ rest, (Fp.ofRat binary64 t).isZero = false)
    (hr : (fpsOf D).isZero = false) :
    (runFps initFps (a :: rest)).2 =
      (List.range (rest.length + 1)).map fun k =>
        if k < (if (Fp.ofRat binary64 a).isZero then 11 else 10) then none
        else some (mean10 (fpsOf D)) := by
  have h0 : (0 : Fp).isZero = true := rfl
  have hinit : initFps = { t0 := 0, fps_history := filledHistory (fpsOf D) 0 } := by
    simp [initFps, filledHistory]
  have hfirst : draw_fps_avg initFps a =
      ({ t0 := Fp.ofRat binary64 a, fps_history := filledHistory (fpsOf D) 0 }, none) := by
    rw [hinit]
    simp [draw_fps_avg, h0]
  rw [List.range_succ_eq_map, List.map_cons, List.map_map]
  simp only [runFps, hfirst]
  cases ha : (Fp.ofRat binary64 a).isZero with
  | false =>
    rw [runFps_warm D hr rest a 0 ha hD hnz]
    simp only [Bool.false_eq_true, if_false, Nat.zero_lt_succ, if_true, List.cons.injEq,
      true_and]
    refine List.map_congr_left ?_
    intro i _
    have hi : (0 + i + 1 < 10) = (i + 1 < 10) := by
      simp only [eq_iff_iff]; omega
    simp only [Function.comp, Nat.succ_eq_add_one, hi]
  | true =>
    simp only [if_true, Nat.zero_lt_succ, List.cons.injEq, true_and]
    cases rest with
    | nil => simp [runFps]
    | cons b rest' =>
      have hb : (Fp.ofRat binary64 b).isZero = false := hnz b (List.mem_cons_self _ _)
      have hsecond : draw_fps_avg
          { t0 := Fp.ofRat binary64 a, fps_history := filledHistory (fpsOf D) 0 } b =
          ({ t0 := Fp.ofRat binary64 b, fps_history := filledHistory (fpsOf D) 0 }, none) := by
        simp [draw_fps_avg, ha]
      have hch : ConstantInterval D (b :: rest') := hD.2
      simp only [runFps, hsecond]
      rw [runFps_warm D hr rest' b 0 hb hch (fun t ht => hnz t (List.mem_cons_of_mem _ ht))]
      rw [List.length_cons, List.range_succ_eq_map, List.map_cons, List.map_map]
      simp only [Function.comp, Nat.succ_eq_add_one, Nat.zero_add]
      refine congrArg₂ _ (by simp) (List.map_congr_left ?_)
      intro i _
      have e1 : (i.succ.succ < 11) = (i + 1 < 10) := by
        simp only [eq_iff_iff, Nat.succ_eq_add_one]; omega
      simp only [Function.comp, e1]

set_option maxRecDepth 100000 in
/-- The average of ten samples of the rate of `D = 100` is exactly 10. -/
theorem mean10_of_100 : (mean10 (fpsOf (Fp.ofRat binary64 100))).EqFrac 1000 100 := by
  decide

set_option maxRecDepth 100000 in
/-- The text drawn at the 11th frame when frames arrive at 100, 200, ..., 1100 ms. -/
theorem draw_fps_text_at_1100 :
    (draw_fps (runFps initFps [100, 200, 300, 400, 500, 600, 700, 800, 900, 1000]).1 1100).2
      = some "FPS=10.00" := by
  decide

set_option maxRecDepth 100000 in
/-- The text drawn at the 12th frame when frames arrive at 0, 100, ..., 1100 ms. -/
theorem draw_fps_text_from_zero_at_1100 :
    (draw_fps (runFps initFps [0, 100, 200, 300, 400, 500, 600, 700, 800, 900, 1000]).1 1100).2
      = some "FPS=10.00" := by
  decide

set_option maxRecDepth 100000 in
/-- Claim C3, counterexample: fed the times 0, 100, 200, ..., 1000, `draw_fps` draws nothing on
any of the eleven calls: the time 0 of the first call is stored in `t0`, where it still reads
as the absence of a previous time, so the second call only records its time and the history
holds nine samples at the eleventh call. And fed the times 40000, 80000, ..., 440000 (so
`D = 40000`), the average at the eleventh call is the `float` `13421774 / 2^29`
(0.0250000022...), which is not `1000 / D` and is drawn as 0.03. -/
theorem draw_fps_from_zero_no_overlay_at_11 :
    (runFps initFps [0, 100, 200, 300, 400, 500, 600, 700, 800, 900, 1000]).2
      = [none, none, none, none, none, none, none, none, none, none, none] ∧
    (runFps initFps
        [40000, 80000, 120000, 160000, 200000, 240000, 280000, 320000, 360000, 400000,
          440000]).2
      = [none, none, none, none, none, none, none, none, none, none,
          some (Fp.finite false 13421774 (-29))] ∧
    ¬ (Fp.finite false 13421774 (-29)).EqFrac 1000 40000 ∧
    fmtFixed 2 (Fp.finite false 13421774 (-29)) = "0.03" := by
  decide

/-- Claim C3, amended: take times in which consecutive ones are `D` apart (as `draw_fps`
computes the difference), none after the first is 0, and the rate `(float)(1000.0 / D)` is
not 0. Then `draw_fps` draws nothing on the first ten calls if the first time is not 0, on the
first eleven calls if it is 0, and on every later call has the average of ten samples of that
rate: their sum accumulated in `float`, divided by `10.f`. For `D = 100` this average is
exactly 10; for the times 100, 200, ..., 1100 the text drawn at the 11th call is `FPS=10.00`,
and for the times 0, 100, ..., 1000, 1100 the same text is first drawn at the 12th call. -/
theorem draw_fps_constant_interval (a : ℚ) (rest : List ℚ) (D : Fp)
    (hD : ConstantInterval D (a :: rest))
    (hnz : ∀ t ∈ rest, (Fp.ofRat binary64 t).isZero = false)
    (hr : (fpsOf D).isZero = false) :
    (runFps initFps (a :: rest)).2 =
      ((List.range (rest.length + 1)).map fun k =>
        if k < (if (Fp.ofRat binary64 a).isZero then 11 else 10) then none
        else some (mean10 (fpsOf D))) ∧
    (mean10 (fpsOf (Fp.ofRat binary64 100))).EqFrac 1000 100 ∧
    (draw_fps (runFps initFps [100, 200, 300, 400, 500, 600, 700, 800, 900, 1000]).1 1100).2
      = some "FPS=10.00" ∧
    (draw_fps (runFps initFps [0, 100, 200, 300, 400, 500, 600, 700, 800, 900, 1000]).1 1100).2
      = some "FPS=10.00" :=
  ⟨runFps_init a rest D hD hnz hr, mean10_of_100, draw_fps_text_at_1100,
    draw_fps_text_from_zero_at_1100⟩

set_option maxRecDepth 100000 in
theorem draw_fps_constant_interval_witness :
    ConstantInterval (Fp.ofRat binary64 100)
      [100, 200, 300, 400, 500, 600, 700, 800, 900, 1000, 1100] ∧
    (fpsOf (Fp.ofRat binary64 100)).isZero = false ∧
    (runFps initFps [100, 200, 300, 400, 500, 600, 700, 800, 900, 1000, 1100]).2
      = [none, none, none, none, none, none, none, none, none, none,
          some (mean10 (fpsOf (Fp.ofRat binary64 100)))] :=
  ⟨by decide, by decide,
   (draw_fps_constant_interval 100 [200, 300, 400, 500, 600, 700, 800, 900, 1000, 1100]
      (Fp.ofRat binary64 100) (by decide) (by decide) (by decide)).1.trans (by decide)⟩

/-! ## Serialisation -/

theorem formatObject_data (o : Object) :
    (formatObject o).data =
      "\x7b\"label\":".data ++ ((fmtInt o.label).data ++ (",\"x\":".data ++
        ((fmtFixed 1 o.rect.x).data ++ (",\"y\":".data ++ ((fmtFixed 1 o.rect.y).data ++
        (",\"w\":".data ++ ((fmtFixed 1 o.rect.width).data ++ (",\"h\":".data ++
        ((fmtFixed 1 o.rect.height).data ++ (",\"score\":".data ++
        ((fmtFixed 4 o.prob).data ++ "\x7d".data))))))))))) := by
  rfl

/-- The interpretation of the format string gives the fields in the order of the interface
description. -/
theorem formatObject_eq_specObject (o : Object) : formatObject o = specObject o := by
  apply String.ext
  rw [formatObject_data]
  simp only [specObject, String.data_append, List.append_assoc]

theorem roundHalfEven_le (n d B : Nat) (hd : 0 < d) (h : n ≤ B * d) :
    roundHalfEven n d ≤ B := by
  have hk : n / d ≤ B := Nat.div_le_of_le_mul (by rw [Nat.mul_comm]; exact h)
  have hdm := Nat.div_add_mod n d
  simp only [roundHalfEven]
  split_ifs with hup
  · have hr : 0 < n % d := by omega
    by_contra hcon
    have hB : n / d = B := by omega
    rw [hB, Nat.mul_comm] at hdm
    omega
  · exact hk

/-- The rounding of `fmtFixed` is to a nearest integer: the result differs from `n / d` by at
most one half. -/
theorem roundHalfEven_nearest (n d : Nat) (hd : 0 < d) :
    2 * (roundHalfEven n d * d) ≤ 2 * n + d ∧ 2 * n ≤ 2 * (roundHalfEven n d * d) + d := by
  have hdm := Nat.div_add_mod n d
  have hlt := Nat.mod_lt n hd
  have hmul : (n / d + 1) * d = d * (n / d) + d := by ring
  have hmul2 : n / d * d = d * (n / d) := Nat.mul_comm _ _
  simp only [roundHalfEven]
  split_ifs with hup
  · rw [hmul]; omega
  · rw [hmul2]
    have : ¬ 2 * (n % d) > d := fun h => hup (Or.inl h)
    omega

theorem den_pos (e : Int) : 0 < Fp.den e := by
  unfold Fp.den
  split_ifs
  · exact Nat.one_pos
  · exact Nat.pos_pow_of_pos _ (by decide)

theorem digitChar_isDigit (k : Nat) (hk : k < 10) :
    (Nat.digitChar k).isDigit = true ∧ (Nat.digitChar k).toNat - 48 = k := by
  interval_cases k <;> exact ⟨rfl, rfl⟩

theorem decValue_foldl (cs : List Char) (acc : Nat) :
    cs.foldl (fun a c => 10 * a + (c.toNat - 48)) acc = acc * 10 ^ cs.length + decValue cs := by
  induction cs generalizing acc with
  | nil => simp [decValue]
  | cons c cs ih =>
    simp only [List.foldl_cons, List.length_cons, decValue]
    rw [ih, ih (10 * 0 + (c.toNat - 48))]
    ring

theorem decValue_cons (c : Char) (cs : List Char) :
    decValue (c :: cs) = (c.toNat - 48) * 10 ^ cs.length + decValue cs := by
  simp only [decValue, List.foldl_cons]
  rw [decValue_foldl]
  simp [decValue]

theorem decValue_append (as bs : List Char) :
    decValue (as ++ bs) = decValue as * 10 ^ bs.length + decValue bs := by
  simp only [decValue, List.foldl_append]
  rw [decValue_foldl]
  simp [decValue]

theorem decValue_zeros (j : Nat) : decValue (List.replicate j '0') = 0 := by
  induction j with
  | zero => rfl
  | succ j ih => rw [List.replicate_succ, decValue_cons, ih]; simp

theorem toDigitsCore_isDigit (fuel n : Nat) (ds : List Char)
    (hds : ∀ c ∈ ds, c.isDigit = true) :
    ∀ c ∈ Nat.toDigitsCore 10 fuel n ds, c.isDigit = true := by
  induction fuel generalizing n ds with
  | zero => simpa [Nat.toDigitsCore] using hds
  | succ fuel ih =>
    have hd := (digitChar_isDigit (n % 10) (Nat.mod_lt _ (by decide))).1
    have hcons : ∀ c ∈ Nat.digitChar (n % 10) :: ds, c.isDigit = true := by
      intro c hc
      rcases List.mem_cons.mp hc with rfl | h
      · exact hd
      · exact hds c h
    simp only [Nat.toDigitsCore]
    split_ifs
    · exact hcons
    · exact ih _ _ hcons

theorem decValue_toDigitsCore (fuel n : Nat) (ds : List Char) (h : n < fuel) :
    decValue (Nat.toDigitsCore 10 fuel n ds) = n * 10 ^ ds.length + decValue ds := by
  induction fuel generalizing n ds with
  | zero => omega
  | succ fuel ih =>
    have hd := (digitChar_isDigit (n % 10) (Nat.mod_lt _ (by decide))).2
    have hdm := Nat.div_add_mod n 10
    simp only [Nat.toDigitsCore]
    split_ifs with h0
    · rw [decValue_cons, hd]
      have : n % 10 = n := by omega
      rw [this]
    · rw [ih (n / 10) _ (by omega), decValue_cons, hd, List.length_cons, pow_succ]
      have : n = 10 * (n / 10) + n % 10 := hdm.symm
      conv_rhs => rw [this]
      ring

theorem toDigits_ne_nil (n : Nat) : Nat.toDigits 10 n ≠ [] := by
  intro h
  have hlen := congrArg List.length h
  simp only [Nat.toDigits, Nat.toDigitsCore, List.length_nil] at hlen
  split_ifs at hlen
  · simp at hlen
  · rw [Nat.toDigitsCore_lens_eq] at hlen
    omega

theorem repr_data (n : Nat) : (Nat.repr n).data = Nat.toDigits 10 n := rfl

theorem decValue_repr (n : Nat) : decValue (Nat.repr n).data = n := by
  rw [repr_data, Nat.toDigits, decValue_toDigitsCore _ _ _ (Nat.lt_succ_self n)]
  simp [decValue]

theorem isDigit_repr (n : Nat) : ∀ c ∈ (Nat.repr n).data, c.isDigit = true := by
  rw [repr_data]
  exact toDigitsCore_isDigit _ _ _ (by simp)

/-- The conversion `%d` writes the integer in decimal. -/
theorem isIntText_fmtInt (i : Int) : IsIntText i (fmtInt i) := by
  cases i with
  | ofNat m =>
    refine ⟨(Nat.repr m).data, ?_, ?_, isDigit_repr m, decValue_repr m⟩
    · have : ¬ (Int.ofNat m < 0) := by
        have : Int.ofNat m = (m : Int) := rfl
        omega
      rw [if_neg this]
      rfl
    · rw [repr_data]; exact toDigits_ne_nil m
  | negSucc m =>
    refine ⟨(Nat.repr (m + 1)).data, ?_, ?_, isDigit_repr _, decValue_repr _⟩
    · rw [if_pos (Int.negSucc_lt_zero m)]
      rfl
    · rw [repr_data]; exact toDigits_ne_nil _

/-- The conversion `%.<prec>f` writes a finite value rounded to `prec` decimals. -/
theorem isFixedText_fmtFixed (prec : Nat) (hp : prec ≠ 0) (s : Bool) (m : Nat) (e : Int) :
    IsFixedText prec (Fp.finite s m e) (fmtFixed prec (Fp.finite s m e)) := by
  have hP : 0 < 10 ^ prec := by positivity
  obtain ⟨k, hk⟩ : ∃ k, k = roundHalfEven (Fp.num m e * 10 ^ prec) (Fp.den e) := ⟨_, rfl⟩
  have hnear := roundHalfEven_nearest (Fp.num m e * 10 ^ prec) (Fp.den e) (den_pos e)
  rw [← hk] at hnear
  have hlen : (Nat.repr (k % 10 ^ prec)).length ≤ prec :=
    Nat.repr_length _ _ (Nat.pos_of_ne_zero hp) (Nat.mod_lt _ hP)
  have hlen2 : (Nat.repr (k % 10 ^ prec)).data.length ≤ prec := hlen
  refine ⟨(Nat.repr (k / 10 ^ prec)).data,
    List.replicate (prec - (Nat.repr (k % 10 ^ prec)).length) '0' ++
      (Nat.repr (k % 10 ^ prec)).data, ?_, ?_, ?_, ?_, ?_⟩
  · simp only [fmtFixed, ← hk, if_neg hp, String.data_append]
    cases s <;> simp
  · rw [repr_data]; exact toDigits_ne_nil _
  · simp only [List.length_append, List.length_replicate, String.length]
    omega
  · intro c hc
    simp only [List.mem_append, List.mem_replicate] at hc
    rcases hc with h | ⟨-, rfl⟩ | h
    · exact isDigit_repr _ c h
    · rfl
    · exact isDigit_repr _ c h
  · have hval : decValue ((Nat.repr (k / 10 ^ prec)).data ++
        (List.replicate (prec - (Nat.repr (k % 10 ^ prec)).length) '0' ++
          (Nat.repr (k % 10 ^ prec)).data)) = k := by
      rw [decValue_append, decValue_append, decValue_zeros, decValue_repr, decValue_repr]
      have hl : (List.replicate (prec - (Nat.repr (k % 10 ^ prec)).length) '0' ++
          (Nat.repr (k % 10 ^ prec)).data).length = prec := by
        simp only [List.length_append, List.length_replicate, String.length]
        omega
      rw [hl, Nat.zero_mul, Nat.zero_add]
      exact Nat.div_add_mod' k (10 ^ prec)
    rw [hval]
    exact hnear

theorem fixed_layout_length (sgn ip fp : String) (prec : Nat) :
    (sgn ++ ip ++ (if prec = 0 then "" else
        "." ++ String.mk (List.replicate (prec - fp.length) '0') ++ fp)).length
      = sgn.length + ip.length + (if prec = 0 then 0 else 1 + (prec - fp.length) + fp.length) := by
  split_ifs with h
  · rw [String.length_append, String.length_append]; rfl
  · rw [String.length_append, String.length_append, String.length_append, String.length_append]
    simp only [String.length, List.length_replicate]
    rfl

theorem fmtFixed_length_le (prec E B : Nat) (x : Fp) (hx : x.MagLe B) (hB : B < 10 ^ E)
    (hE : 0 < E) : (fmtFixed prec x).length ≤ 1 + E + 1 + prec := by
  cases x with
  | nan s => exact absurd hx (by simp [Fp.MagLe])
  | inf s => exact absurd hx (by simp [Fp.MagLe])
  | finite s m e =>
    have hx2 : Fp.num m e ≤ B * Fp.den e := hx
    have hk : roundHalfEven (Fp.num m e * 10 ^ prec) (Fp.den e) ≤ B * 10 ^ prec := by
      apply roundHalfEven_le _ _ _ (den_pos e)
      calc Fp.num m e * 10 ^ prec ≤ (B * Fp.den e) * 10 ^ prec := Nat.mul_le_mul_right _ hx2
        _ = B * 10 ^ prec * Fp.den e := by ring
    have hpos : 0 < 10 ^ prec := by positivity
    have hip : roundHalfEven (Fp.num m e * 10 ^ prec) (Fp.den e) / 10 ^ prec < 10 ^ E := by
      apply lt_of_le_of_lt _ hB
      exact Nat.div_le_of_le_mul (le_of_le_of_eq hk (Nat.mul_comm _ _))
    have hfp : (Nat.repr (roundHalfEven (Fp.num m e * 10 ^ prec) (Fp.den e) % 10 ^ prec)).length
        ≤ prec ∨ prec = 0 := by
      rcases Nat.eq_zero_or_pos prec with h0 | h0
      · right; exact h0
      · left; exact Nat.repr_length _ _ h0 (Nat.mod_lt _ hpos)
    have hlen := Nat.repr_length _ E hE hip
    have hs : ∀ b : Bool, (if b then "-" else "").length ≤ 1 := by
      intro b; cases b <;> decide
    have hs2 := hs s
    simp only [fmtFixed]
    rw [fixed_layout_length]
    generalize (if s = true then "-" else "").length = sl at hs2 ⊢
    split_ifs with h2 <;> omega

theorem fmtInt_length_le (i : Int) (h1 : -2147483648 ≤ i) (h2 : i ≤ 2147483647) :
    (fmtInt i).length ≤ 11 := by
  cases i with
  | ofNat m =>
    have hm : m < 10 ^ 10 := by
      have : Int.ofNat m = (m : Int) := rfl
      rw [this] at h2
      omega
    have := Nat.repr_length m 10 (by decide) hm
    show (Nat.repr m).length ≤ 11
    omega
  | negSucc m =>
    have hm : m + 1 < 10 ^ 10 := by
      have : Int.negSucc m = -((m : Int) + 1) := rfl
      rw [this] at h1
      omega
    have := Nat.repr_length (m + 1) 10 (by decide) hm
    show ("-" ++ Nat.repr (m + 1)).length ≤ 11
    have hd : ("-").length = 1 := rfl
    rw [String.length_append, hd]
    omega

theorem specObject_length_le (o : Object) (h : o.WellFormed) :
    (specObject o).length ≤ 255 := by
  obtain ⟨⟨hl1, hl2⟩, hx, hy, hw, hh, -, hp1⟩ := h
  have e1 := fmtInt_length_le o.label hl1 hl2
  have e2 := fmtFixed_length_le 1 39 FLT_MAX _ hx (by decide) (by decide)
  have e3 := fmtFixed_length_le 1 39 FLT_MAX _ hy (by decide) (by decide)
  have e4 := fmtFixed_length_le 1 39 FLT_MAX _ hw (by decide) (by decide)
  have e5 := fmtFixed_length_le 1 39 FLT_MAX _ hh (by decide) (by decide)
  have e6 := fmtFixed_length_le 4 1 1 _ hp1 (by decide) (by decide)
  have c1 : ("\x7b\"label\":").length = 9 := rfl
  have c2 : (",\"x\":").length = 5 := rfl
  have c3 : (",\"y\":").length = 5 := rfl
  have c4 : (",\"w\":").length = 5 := rfl
  have c5 : (",\"h\":").length = 5 := rfl
  have c6 : (",\"score\":").length = 9 := rfl
  have c7 : ("\x7d").length = 1 := rfl
  simp only [specObject, String.length_append, c1, c2, c3, c4, c5, c6, c7]
  omega

theorem snprintf_of_fits (size : Nat) (full : String) (h : full.length ≤ size - 1) :
    snprintf size full = full := by
  simp only [snprintf]
  rw [List.take_of_length_le h]

theorem intercalate_go_append (sep acc x : String) (l : List String) :
    String.intercalate.go acc sep (l ++ [x]) = String.intercalate.go acc sep l ++ sep ++ x := by
  induction l generalizing acc with
  | nil => simp [String.intercalate.go]
  | cons a as ih => simp [String.intercalate.go, ih]

theorem intercalate_append_singleton (sep x : String) (l : List String) :
    sep.intercalate (l ++ [x]) = if l = [] then x else sep.intercalate l ++ sep ++ x := by
  cases l with
  | nil => simp [String.intercalate, String.intercalate.go]
  | cons a as => simp [String.intercalate, intercalate_go_append]

/-- The loop of `buildJson` after `k` iterations. -/
theorem buildJson_loop (objects : List Object) (k : Nat) (hk : k ≤ objects.length) :
    (List.range k).foldl
      (fun json i =>
        let buf := match objects[i]? with
          | some o => snprintf 256 (formatObject o)
          | none => ""
        let json := json ++ buf
        if i + 1 < objects.length then json ++ "," else json)
      "["
    = "[" ++ ",".intercalate ((objects.take k).map fun o => snprintf 256 (formatObject o))
        ++ (if 0 < k ∧ k < objects.length then "," else "") := by
  induction k with
  | zero => simp [String.intercalate]
  | succ k ih =>
    have hlt : k < objects.length := hk
    rw [List.range_succ, List.foldl_append, ih (by omega)]
    have hget : objects[k]? = some objects[k] := List.getElem?_eq_getElem hlt
    have htake : objects.take (k + 1) = objects.take k ++ [objects[k]] := by
      rw [List.take_succ, hget]; rfl
    rw [htake, List.map_append, List.map_singleton, intercalate_append_singleton]
    simp only [List.foldl_cons, List.foldl_nil, hget, hlt, and_true, Nat.zero_lt_succ, true_and]
    rcases Nat.eq_zero_or_pos k with h0 | h0
    · subst h0
      simp only [List.take_zero, List.map_nil, String.intercalate, Nat.lt_irrefl, if_false,
        if_true, String.append_empty]
      split_ifs <;> simp [String.append_assoc]
    · have hne : ¬ (List.map (fun o => snprintf 256 (formatObject o)) (objects.take k) = []) := by
        intro h
        have := congrArg List.length h
        simp only [List.length_map, List.length_take, List.length_nil] at this
        omega
      simp only [h0, if_true, hne, if_false, String.append_assoc]
      split_ifs <;> simp [String.append_assoc]

theorem buildJson_eq (objects : List Object) :
    buildJson objects =
      "[" ++ ",".intercalate (objects.map fun o => snprintf 256 (formatObject o)) ++ "]" := by
  have h := buildJson_loop objects objects.length (Nat.le_refl _)
  simp only [buildJson, h, List.take_length, Nat.lt_irrefl, and_false, if_false,
    String.append_empty]

theorem exampleObject_wellFormed : exampleObject.WellFormed := by
  decide

theorem buildJson_exampleObject :
    buildJson [exampleObject] =
      "[\x7b\"label\":3,\"x\":1.0,\"y\":2.0,\"w\":30.0,\"h\":40.0,\"score\":0.8765\x7d]" := by
  decide

set_option maxRecDepth 100000 in
/-- Outside the detector's range the buffer of 256 bytes cuts the object. -/
theorem snprintf_extremeObject :
    (formatObject extremeObject).length = 263 ∧
    (snprintf 256 (formatObject extremeObject)).length = 255 := by
  decide

/-- A value halfway between two texts goes to the one with an even last digit (0.25 and 0.75
with one decimal), and a negative zero keeps its sign. -/
theorem fmtFixed_ties :
    fmtFixed 1 (Fp.finite false 1 (-2)) = "0.2" ∧ fmtFixed 1 (Fp.finite false 3 (-2)) = "0.8" ∧
    fmtFixed 1 (Fp.finite true 0 0) = "-0.0" := by
  decide

/-- The texts of the numbers of an object with finite fields. -/
theorem numberTexts (o : Object) (h : o.WellFormed) :
    IsIntText o.label (fmtInt o.label) ∧
    IsFixedText 1 o.rect.x (fmtFixed 1 o.rect.x) ∧ IsFixedText 1 o.rect.y (fmtFixed 1 o.rect.y) ∧
    IsFixedText 1 o.rect.width (fmtFixed 1 o.rect.width) ∧
    IsFixedText 1 o.rect.height (fmtFixed 1 o.rect.height) ∧
    IsFixedText 4 o.prob (fmtFixed 4 o.prob) := by
  obtain ⟨-, hx, hy, hw, hh, -, hp⟩ := h
  have key : ∀ (prec : Nat) (x : Fp) (B : Nat), prec ≠ 0 → x.MagLe B →
      IsFixedText prec x (fmtFixed prec x) := by
    intro prec x B hp hx
    cases x with
    | nan s => exact absurd hx (by simp [Fp.MagLe])
    | inf s => exact absurd hx (by simp [Fp.MagLe])
    | finite s m e => exact isFixedText_fmtFixed prec hp s m e
  exact ⟨isIntText_fmtInt _, key 1 _ _ (by decide) hx, key 1 _ _ (by decide) hy,
    key 1 _ _ (by decide) hw, key 1 _ _ (by decide) hh, key 4 _ _ (by decide) hp⟩

/-- Claim C6: for a sequence of detection results (`label` a 32-bit integer, rectangle fields
finite `float` values, score between 0 and 1) the string built by the loop of
`on_image_render` is an opening bracket, then the objects in input order separated by single
commas with no trailing comma, then a closing bracket; each object is, uncut by the 256-byte
buffer, the fields `label`, `x`, `y`, `w`, `h`, `score` in that order between braces, where the
label text is the integer in decimal, each rectangle text is the value rounded to one decimal
and the score text the value rounded to four decimals. The result with label 3, score
`0.8765f` and rectangle 1, 2, 30, 40 gives the text of the example in the interface
description. (Outside that range the buffer does cut: an object of 263 characters is stored as
its first 255. A value halfway between two texts, as 0.25 with one decimal, goes to the even
digit, and a negative zero is written with its sign.) The pipeline builds the string for
non-empty sequences only. -/
theorem buildJson_payload (objects : List Object) (hwf : ∀ o ∈ objects, o.WellFormed) :
    buildJson objects =
      "[" ++ ",".intercalate (objects.map fun o =>
        "\x7b\"label\":" ++ fmtInt o.label ++ ",\"x\":" ++ fmtFixed 1 o.rect.x
          ++ ",\"y\":" ++ fmtFixed 1 o.rect.y ++ ",\"w\":" ++ fmtFixed 1 o.rect.width
          ++ ",\"h\":" ++ fmtFixed 1 o.rect.height ++ ",\"score\":" ++ fmtFixed 4 o.prob
          ++ "\x7d") ++ "]" ∧
    (∀ o ∈ objects,
      IsIntText o.label (fmtInt o.label) ∧
      IsFixedText 1 o.rect.x (fmtFixed 1 o.rect.x) ∧
      IsFixedText 1 o.rect.y (fmtFixed 1 o.rect.y) ∧
      IsFixedText 1 o.rect.width (fmtFixed 1 o.rect.width) ∧
      IsFixedText 1 o.rect.height (fmtFixed 1 o.rect.height) ∧
      IsFixedText 4 o.prob (fmtFixed 4 o.prob)) ∧
    buildJson [exampleObject] =
      "[\x7b\"label\":3,\"x\":1.0,\"y\":2.0,\"w\":30.0,\"h\":40.0,\"score\":0.8765\x7d]" ∧
    ((formatObject extremeObject).length = 263 ∧
      (snprintf 256 (formatObject extremeObject)).length = 255) ∧
    (fmtFixed 1 (Fp.finite false 1 (-2)) = "0.2" ∧ fmtFixed 1 (Fp.finite false 3 (-2)) = "0.8" ∧
      fmtFixed 1 (Fp.finite true 0 0) = "-0.0") := by
  refine ⟨?_, fun o ho => numberTexts o (hwf o ho), buildJson_exampleObject,
    snprintf_extremeObject, fmtFixed_ties⟩
  rw [buildJson_eq]
  congr 2
  apply congrArg
  apply List.map_congr_left
  intro o ho
  rw [formatObject_eq_specObject]
  exact snprintf_of_fits 256 _ (specObject_length_le o (hwf o ho))

theorem buildJson_payload_witness :
    (∀ o ∈ [exampleObject, exampleObject], o.WellFormed) ∧
    buildJson [exampleObject, exampleObject] =
      "[\x7b\"label\":3,\"x\":1.0,\"y\":2.0,\"w\":30.0,\"h\":40.0,\"score\":0.8765\x7d," ++
        "\x7b\"label\":3,\"x\":1.0,\"y\":2.0,\"w\":30.0,\"h\":40.0,\"score\":0.8765\x7d]" :=
  ⟨by decide,
   (buildJson_payload [exampleObject, exampleObject] (by decide)).1.trans (by decide)⟩

/-! ## Notification -/

/-- The number of `DetachCurrentThread` calls made by the notification step. -/
theorem countDetach_notifyStep (vm : JavaVM) (activity : Option Nat) (json : String) :
    countDetach (notifyStep vm activity json) =
      if vm.getEnv.1 = JNI_EDETACHED ∧ vm.attachCurrentThread.1 = 0 ∧
          vm.attachCurrentThread.2.isSome = true then 1 else 0 := by
  rcases vm with ⟨⟨gc, ge⟩, ⟨ac, ae⟩, cls, mid⟩
  by_cases h1 : gc = JNI_EDETACHED <;> by_cases h2 : ac = 0 <;>
    cases ae <;> cases ge <;> cases activity <;> cases cls <;> cases mid <;>
    simp [notifyStep, countDetach, h1, h2]

theorem countAttachOk_notifyStep (vm : JavaVM) (activity : Option Nat) (json : String) :
    countAttachOk (notifyStep vm activity json) =
      if vm.getEnv.1 = JNI_EDETACHED ∧ vm.attachCurrentThread.1 = 0 then 1 else 0 := by
  rcases vm with ⟨⟨gc, ge⟩, ⟨ac, ae⟩, cls, mid⟩
  by_cases h1 : gc = JNI_EDETACHED <;> by_cases h2 : ac = 0 <;>
    cases ae <;> cases ge <;> cases activity <;> cases cls <;> cases mid <;>
    simp [notifyStep, countAttachOk, h1, h2, List.count_cons]

theorem countCallbacks_notifyStep (vm : JavaVM) (activity : Option Nat) (json : String) :
    countCallbacks (notifyStep vm activity json) ≤ 1 ∧
    (0 < countCallbacks (notifyStep vm activity json) → activity.isSome = true) := by
  rcases vm with ⟨⟨gc, ge⟩, ⟨ac, ae⟩, cls, mid⟩
  by_cases h1 : gc = JNI_EDETACHED <;> by_cases h2 : ac = 0 <;>
    cases ae <;> cases ge <;> cases activity <;> cases cls <;> cases mid <;>
    simp [notifyStep, countCallbacks, h1, h2]

theorem events_on_image_render {α : Type} (s : RenderState) (detect : Mat α → List Object)
    (t1 : ℚ) (rgb : Mat α) :
    (on_image_render s detect t1 rgb).events =
      (if s.g_yolo11.isSome then
        [RenderEvent.detect,
          RenderEvent.draw (detect (applyRotation s.g_display_rotation rgb)).length] ++
          (match s.g_jvm_global with
            | some vm =>
              if !(detect (applyRotation s.g_display_rotation rgb)).isEmpty then
                notifyStep vm s.g_main_activity_global
                  (buildJson (detect (applyRotation s.g_display_rotation rgb)))
              else []
            | none => [])
      else [RenderEvent.draw_unsupported]) ++ [RenderEvent.draw_fps (draw_fps s.fps t1).2] := rfl

theorem countDetach_append (a b : List RenderEvent) :
    countDetach (a ++ b) = countDetach a + countDetach b := by
  simp [countDetach]

theorem countAttachOk_append (a b : List RenderEvent) :
    countAttachOk (a ++ b) = countAttachOk a + countAttachOk b := by
  simp [countAttachOk]

theorem countCallbacks_append (a b : List RenderEvent) :
    countCallbacks (a ++ b) = countCallbacks a + countCallbacks b := by
  simp [countCallbacks]

/-- The counts of a render trace are those of its notification step, when there is one. -/
theorem counts_on_image_render {α : Type} (s : RenderState) (detect : Mat α → List Object)
    (t1 : ℚ) (rgb : Mat α) (count : List RenderEvent → Nat)
    (happ : ∀ a b, count (a ++ b) = count a + count b)
    (h0 : count [] = 0) (h1 : count [RenderEvent.detect] = 0)
    (h2 : ∀ n, count [RenderEvent.draw n] = 0) (h3 : count [RenderEvent.draw_unsupported] = 0)
    (h4 : ∀ t, count [RenderEvent.draw_fps t] = 0) :
    count (on_image_render s detect t1 rgb).events =
      match s.g_yolo11, s.g_jvm_global with
      | some _, some vm =>
        if (detect (applyRotation s.g_display_rotation rgb)) = [] then 0
        else count (notifyStep vm s.g_main_activity_global
          (buildJson (detect (applyRotation s.g_display_rotation rgb))))
      | _, _ => 0 := by
  rw [events_on_image_render, happ, h4]
  cases hy : s.g_yolo11 with
  | none => simp [h3]
  | some w =>
    have hsplit : ∀ x, count ([RenderEvent.detect,
        RenderEvent.draw (detect (applyRotation s.g_display_rotation rgb)).length] ++ x)
        = count x := by
      intro x
      have : ([RenderEvent.detect,
          RenderEvent.draw (detect (applyRotation s.g_display_rotation rgb)).length] ++ x)
          = [RenderEvent.detect] ++ ([RenderEvent.draw
              (detect (applyRotation s.g_display_rotation rgb)).length] ++ x) := rfl
      rw [this, happ, happ, h1, h2]; simp
    cases hj : s.g_jvm_global with
    | none => simp only [Option.isSome_some, if_true, hsplit, h0, Nat.add_zero]
    | some vm =>
      simp only [Option.isSome_some, if_true, hsplit, Nat.add_zero]
      cases hd : detect (applyRotation s.g_display_rotation rgb) with
      | nil => simp [h0]
      | cons o os => simp

theorem mem_notifyStep_callback (vm : JavaVM) (activity : Option Nat) (json : String)
    (cls mid : Nat) (j : String)
    (h : RenderEvent.callStaticVoidMethod cls mid j ∈ notifyStep vm activity json) : j = json := by
  rcases vm with ⟨⟨gc, ge⟩, ⟨ac, ae⟩, c, m⟩
  by_cases h1 : gc = JNI_EDETACHED <;> by_cases h2 : ac = 0 <;>
    cases ae <;> cases ge <;> cases activity <;> cases c <;> cases m <;>
    simp [notifyStep, h1, h2] at h <;> exact h.2.2

/-- Claim C7: whatever `GetEnv` and `AttachCurrentThread` return (given that an
`AttachCurrentThread` returning 0 stores a valid environment), and whether or not an activity
is registered and the class and method lookups succeed, the notification step calls
`DetachCurrentThread` once if `GetEnv` answered `JNI_EDETACHED` and `AttachCurrentThread`
returned 0, and not at all otherwise. In a whole `on_image_render` call the number of
`DetachCurrentThread` calls equals the number of successful `AttachCurrentThread` calls and is
at most one. -/
theorem notifyStep_detach_iff_attached {α : Type} (s : RenderState)
    (detect : Mat α → List Object) (t1 : ℚ) (rgb : Mat α)
    (hjni : ∀ vm, s.g_jvm_global = some vm → vm.AttachContract) :
    (∀ vm activity json, vm.AttachContract →
      countDetach (notifyStep vm activity json) =
        if vm.getEnv.1 = JNI_EDETACHED ∧ vm.attachCurrentThread.1 = 0 then 1 else 0) ∧
    countDetach (on_image_render s detect t1 rgb).events
      = countAttachOk (on_image_render s detect t1 rgb).events ∧
    countDetach (on_image_render s detect t1 rgb).events ≤ 1 := by
  have hstep : ∀ (vm : JavaVM) activity json, vm.AttachContract →
      countDetach (notifyStep vm activity json) =
        if vm.getEnv.1 = JNI_EDETACHED ∧ vm.attachCurrentThread.1 = 0 then 1 else 0 := by
    intro vm activity json hc
    rw [countDetach_notifyStep]
    by_cases h : vm.getEnv.1 = JNI_EDETACHED ∧ vm.attachCurrentThread.1 = 0
    · rw [if_pos h, if_pos ⟨h.1, h.2, hc h.2⟩]
    · rw [if_neg h, if_neg (fun h3 => h ⟨h3.1, h3.2.1⟩)]
  have hd := counts_on_image_render s detect t1 rgb countDetach countDetach_append
    (by simp [countDetach]) (by simp [countDetach]) (by simp [countDetach])
    (by simp [countDetach]) (by simp [countDetach])
  have ha := counts_on_image_render s detect t1 rgb countAttachOk countAttachOk_append
    (by simp [countAttachOk]) (by simp [countAttachOk]) (by simp [countAttachOk])
    (by simp [countAttachOk]) (by simp [countAttachOk])
  refine ⟨hstep, ?_, ?_⟩
  · rw [hd, ha]
    cases hy : s.g_yolo11 with
    | none => rfl
    | some w =>
      cases hj : s.g_jvm_global with
      | none => rfl
      | some vm =>
        simp only
        rw [hstep vm _ _ (hjni vm hj), countAttachOk_notifyStep]
  · rw [hd]
    cases hy : s.g_yolo11 with
    | none => simp
    | some w =>
      cases hj : s.g_jvm_global with
      | none => simp
      | some vm =>
        simp only
        rw [hstep vm _ _ (hjni vm hj)]
        split_ifs <;> omega

theorem notifyStep_detach_iff_attached_witness :
    sampleVM.AttachContract ∧
    countDetach (notifyStep sampleVM (some 5) "[]") = 1 ∧
    countDetach (on_image_render
      { g_display_rotation := 90, g_yolo11 := (loadModel initManager 0 0 0).state.g_yolo11,
        g_jvm_global := some sampleVM, g_main_activity_global := some 5, fps := initFps }
      (fun _ => [exampleObject]) 100 sampleFrame).events ≤ 1 :=
  ⟨by decide,
   ((notifyStep_detach_iff_attached
      { g_display_rotation := 90, g_yolo11 := (loadModel initManager 0 0 0).state.g_yolo11,
        g_jvm_global := some sampleVM, g_main_activity_global := some 5, fps := initFps }
      (fun _ => [exampleObject]) 100 sampleFrame
      (by intro vm h; cases h; decide)).1 sampleVM (some 5) "[]" (by decide)).trans (by decide),
   (notifyStep_detach_iff_attached
      { g_display_rotation := 90, g_yolo11 := (loadModel initManager 0 0 0).state.g_yolo11,
        g_jvm_global := some sampleVM, g_main_activity_global := some 5, fps := initFps }
      (fun _ => [exampleObject]) 100 sampleFrame
      (by intro vm h; cases h; decide)).2.2⟩

/-- Claim C8: in every `on_image_render` call `pushDetectionsToScripts` is called at most
once, and only if the detector returned a non-empty sequence and an activity is registered
(and a worker and a VM exist); with an empty sequence or no registered activity it is not
called. A call that is made carries the string built from the detector's results. In every
case the call runs to its end: the detections are drawn when a worker exists, the placeholder
otherwise, and `draw_fps` runs last and updates its statics. -/
theorem on_image_render_callback_at_most_once {α : Type} (s : RenderState)
    (detect : Mat α → List Object) (t1 : ℚ) (rgb : Mat α) :
    let objects := detect (applyRotation s.g_display_rotation rgb)
    let res := on_image_render s detect t1 rgb
    countCallbacks res.events ≤ 1 ∧
    (0 < countCallbacks res.events →
      objects ≠ [] ∧ s.g_main_activity_global.isSome = true ∧ s.g_yolo11.isSome = true ∧
      s.g_jvm_global.isSome = true) ∧
    (objects = [] ∨ s.g_main_activity_global = none → countCallbacks res.events = 0) ∧
    (∀ cls mid json, RenderEvent.callStaticVoidMethod cls mid json ∈ res.events →
      json = buildJson objects) ∧
    (s.g_yolo11.isSome = true → RenderEvent.draw objects.length ∈ res.events) ∧
    (s.g_yolo11 = none → RenderEvent.draw_unsupported ∈ res.events) ∧
    res.events.getLast? = some (RenderEvent.draw_fps (draw_fps s.fps t1).2) ∧
    res.fps = (draw_fps s.fps t1).1 := by
  intro objects res
  have hc := counts_on_image_render s detect t1 rgb countCallbacks countCallbacks_append
    (by simp [countCallbacks]) (by simp [countCallbacks]) (by simp [countCallbacks])
    (by simp [countCallbacks]) (by simp [countCallbacks])
  have hev := events_on_image_render s detect t1 rgb
  have key : countCallbacks res.events ≤ 1 ∧ (0 < countCallbacks res.events →
      objects ≠ [] ∧ s.g_main_activity_global.isSome = true ∧ s.g_yolo11.isSome = true ∧
      s.g_jvm_global.isSome = true) := by
    show countCallbacks (on_image_render s detect t1 rgb).events ≤ 1 ∧
      (0 < countCallbacks (on_image_render s detect t1 rgb).events → _)
    rw [hc]
    cases hy : s.g_yolo11 with
    | none => simp
    | some w =>
      cases hj : s.g_jvm_global with
      | none => simp
      | some vm =>
        simp only
        by_cases ho : detect (applyRotation s.g_display_rotation rgb) = []
        · simp [ho]
        · simp only [ho, if_false]
          have := countCallbacks_notifyStep vm s.g_main_activity_global
            (buildJson (detect (applyRotation s.g_display_rotation rgb)))
          exact ⟨this.1, fun h => ⟨ho, this.2 h, rfl, rfl⟩⟩
  refine ⟨key.1, key.2, ?_, ?_, ?_, ?_, ?_, rfl⟩
  · intro h
    by_contra hne
    have hpos : 0 < countCallbacks res.events := Nat.pos_of_ne_zero hne
    obtain ⟨h1, h2, -, -⟩ := key.2 hpos
    rcases h with h | h
    · exact h1 h
    · rw [h] at h2; simp at h2
  · intro cls mid json hmem
    change _ ∈ (on_image_render s detect t1 rgb).events at hmem
    rw [hev] at hmem
    cases hy : s.g_yolo11 with
    | none => simp [hy] at hmem
    | some w =>
      cases hj : s.g_jvm_global with
      | none => simp [hy, hj] at hmem
      | some vm =>
        simp only [hy, hj, Option.isSome_some, if_true] at hmem
        by_cases ho : detect (applyRotation s.g_display_rotation rgb) = []
        · simp [ho] at hmem
        · simp [ho] at hmem
          exact mem_notifyStep_callback _ _ _ _ _ _ hmem
  · intro hy
    change _ ∈ (on_image_render s detect t1 rgb).events
    rw [hev, hy]
    simp
  · intro hy
    change _ ∈ (on_image_render s detect t1 rgb).events
    rw [hev, hy]
    simp
  · change (on_image_render s detect t1 rgb).events.getLast? = _
    rw [hev]
    simp

theorem on_image_render_callback_at_most_once_witness :
    countCallbacks (on_image_render
      { g_display_rotation := 270, g_yolo11 := (loadModel initManager 0 0 0).state.g_yolo11,
        g_jvm_global := some sampleVM, g_main_activity_global := none, fps := initFps }
      (fun _ => [exampleObject]) 100 sampleFrame).events = 0 ∧
    countCallbacks (on_image_render
      { g_display_rotation := 0, g_yolo11 := (loadModel initManager 0 0 0).state.g_yolo11,
        g_jvm_global := some { sampleVM with getStaticMethodID := some 13 },
        g_main_activity_global := some 5, fps := initFps }
      (fun _ => [exampleObject]) 100 sampleFrame).events ≤ 1 :=
  ⟨(on_image_render_callback_at_most_once
      { g_display_rotation := 270, g_yolo11 := (loadModel initManager 0 0 0).state.g_yolo11,
        g_jvm_global := some sampleVM, g_main_activity_global := none, fps := initFps }
      (fun _ => [exampleObject]) 100 sampleFrame).2.2.1 (Or.inr rfl),
   (on_image_render_callback_at_most_once
      { g_display_rotation := 0, g_yolo11 := (loadModel initManager 0 0 0).state.g_yolo11,
        g_jvm_global := some { sampleVM with getStaticMethodID := some 13 },
        g_main_activity_global := some 5, fps := initFps }
      (fun _ => [exampleObject]) 100 sampleFrame).1⟩

end Yolo11Ncnn
